import Mathlib

/-!
Verification development for the MinZX_SDL ZX Spectrum emulator.

Shallow embedding of the relevant C sources:
  * src/jgz80/z80.c   - Z80 CPU core (init, reset, step, step_n)
  * src/ay/ay.c       - AY-3-8912 register file
  * src/disk/trd.c    - TRD image sector access
  * src/disk/fdc.c    - WD1793 FDC state machine
  * src/disk/scl.c    - SCL to TRD conversion (read-only flag)
  * src/minzx.c       - unified TAP/TZX tape pulse engine

Machine integers are modelled as Nat with explicit reductions modulo
2^8 / 2^16 / 2^32 at the points where the C code truncates.  File
handles are modelled as an in-memory byte list plus a cursor; reads
past the end of the file yield 0, matching rd_u8 (minzx.c line 110,
fgetc at EOF returns 0 there) and the callers that track file_pos.
-/

namespace MinZX

/-! ### Z80 core (src/jgz80/z80.c) -/

/-- The z80 register file, mirroring `struct z80_s` in z80.h (the callback
pointers are replaced by the explicit memory in `Z80M` and the port oracle
passed to `z80_step`). -/
structure Z80 where
  pc : Nat
  sp : Nat
  af : Nat
  bc : Nat
  de : Nat
  hl : Nat
  ix : Nat
  iy : Nat
  af_ : Nat
  bc_ : Nat
  de_ : Nat
  hl_ : Nat
  i : Nat
  r : Nat
  r7 : Nat
  iff1 : Bool
  iff2 : Bool
  interrupt_mode : Nat
  halted : Bool
  cycles : Nat
  deriving Repr, DecidableEq

/-- CPU together with the 64 KiB memory reachable through the
`read_byte` / `write_byte` callbacks. -/
structure Z80M where
  cpu : Z80
  mem : Nat → Nat

/-- `z80_init` (z80.c lines 32-47): zero everything, then set the register
pairs to 0xFFFF, PC to 0, I = R = 0, IFF1 = IFF2 = false, interrupt mode 1,
not halted, cycle counter 0. -/
def z80_init : Z80 :=
  { pc := 0x0000, sp := 0xFFFF
    af := 0xFFFF, bc := 0xFFFF, de := 0xFFFF, hl := 0xFFFF
    ix := 0xFFFF, iy := 0xFFFF
    af_ := 0xFFFF, bc_ := 0xFFFF, de_ := 0xFFFF, hl_ := 0xFFFF
    i := 0x00, r := 0x00, r7 := 0x00
    iff1 := false, iff2 := false
    interrupt_mode := 1
    halted := false
    cycles := 0 }

/-- `z80_reset` (z80.c lines 50-55): sets PC to 0, clears IFF1/IFF2, clears
halted and zeroes R.  Nothing else is touched. -/
def z80_reset (c : Z80) : Z80 :=
  { c with pc := 0x0000, iff1 := false, iff2 := false, halted := false, r := 0x00 }

/-- `read_mem`: the read_byte callback delivers one byte for a 16-bit
address. -/
def read_mem (s : Z80M) (addr : Nat) : Nat :=
  s.mem (addr % 65536) % 256

/-- `write_mem`: the write_byte callback stores one byte at a 16-bit
address. -/
def write_mem (s : Z80M) (addr v : Nat) : Z80M :=
  { s with mem := fun a => if a = addr % 65536 then v % 256 else s.mem a }

/-- `fetch` (z80.c lines 78-82): read the byte at PC, increment PC (16-bit
wrap), and increment the low 7 bits of R keeping bit 7. -/
def fetch (s : Z80M) : Nat × Z80M :=
  let v := read_mem s s.cpu.pc
  (v, { s with cpu := { s.cpu with
          pc := (s.cpu.pc + 1) % 65536
          r := (s.cpu.r &&& 0x80) ||| ((s.cpu.r + 1) &&& 0x7F) } })

/-- `push` (z80.c lines 85-89): SP -= 2 with 16-bit wrap, then store the low
and high bytes. -/
def push (s : Z80M) (v : Nat) : Z80M :=
  let sp := (s.cpu.sp + 65536 - 2) % 65536
  let s1 := { s with cpu := { s.cpu with sp := sp } }
  let s2 := write_mem s1 sp (v &&& 0xFF)
  write_mem s2 ((sp + 1) % 65536) (v >>> 8)

/-- `pop` (z80.c lines 92-96). -/
def pop (s : Z80M) : Nat × Z80M :=
  let v := read_mem s s.cpu.sp ||| (read_mem s ((s.cpu.sp + 1) % 65536) <<< 8)
  (v, { s with cpu := { s.cpu with sp := (s.cpu.sp + 2) % 65536 } })

/-- Number of set bits in one byte (for the parity table of z80.c
lines 17-29). -/
def bitcount8 (n : Nat) : Nat :=
  (n &&& 1) + ((n >>> 1) &&& 1) + ((n >>> 2) &&& 1) + ((n >>> 3) &&& 1) +
  ((n >>> 4) &&& 1) + ((n >>> 5) &&& 1) + ((n >>> 6) &&& 1) + ((n >>> 7) &&& 1)

/-- `parity_table[v]`: Z80_FLAG_PV (0x04) when the byte has even parity,
else 0. -/
def parity_table (v : Nat) : Nat :=
  if bitcount8 (v % 256) % 2 = 1 then 0 else 0x04

/-- Z80_F accessor. -/
def z80_F (c : Z80) : Nat := c.af &&& 0xFF

/-- Z80_SET_F macro. -/
def z80_set_F (c : Z80) (v : Nat) : Z80 :=
  { c with af := (c.af &&& 0xFF00) ||| (v &&& 0xFF) }

/-- Z80_SET_A macro (high byte of AF). -/
def z80_set_A (c : Z80) (v : Nat) : Z80 :=
  { c with af := (c.af &&& 0x00FF) ||| ((v % 256) <<< 8) }

/-- Z80_SET_B macro. -/
def z80_set_B (c : Z80) (v : Nat) : Z80 :=
  { c with bc := (c.bc &&& 0x00FF) ||| ((v % 256) <<< 8) }

/-- Z80_SET_C macro. -/
def z80_set_C (c : Z80) (v : Nat) : Z80 :=
  { c with bc := (c.bc &&& 0xFF00) ||| (v % 256) }

/-- Z80_SET_D macro. -/
def z80_set_D (c : Z80) (v : Nat) : Z80 :=
  { c with de := (c.de &&& 0x00FF) ||| ((v % 256) <<< 8) }

/-- Z80_SET_E macro. -/
def z80_set_E (c : Z80) (v : Nat) : Z80 :=
  { c with de := (c.de &&& 0xFF00) ||| (v % 256) }

/-- Z80_SET_H macro. -/
def z80_set_H (c : Z80) (v : Nat) : Z80 :=
  { c with hl := (c.hl &&& 0x00FF) ||| ((v % 256) <<< 8) }

/-- Z80_SET_L macro. -/
def z80_set_L (c : Z80) (v : Nat) : Z80 :=
  { c with hl := (c.hl &&& 0xFF00) ||| (v % 256) }

/-- `update_flags_szp` (z80.c lines 99-105): preserve carry, set Z, S and
parity from the result byte. -/
def update_flags_szp (s : Z80M) (result : Nat) : Z80M :=
  let f0 := z80_F s.cpu &&& 0x01
  let f1 := if result % 256 = 0 then f0 ||| 0x40 else f0
  let f2 := if (result &&& 0x80) ≠ 0 then f1 ||| 0x80 else f1
  let f3 := f2 ||| parity_table result
  { s with cpu := z80_set_F s.cpu f3 }

/-- One ED-prefixed instruction (z80.c lines 219-287).  Returns the cycle
count of the branch together with the new state.  `ports` is the port_in
callback; port_out has no effect on the CPU/memory state. -/
def z80_exec_ed (ports : Nat → Nat) (ed_op : Nat) (s : Z80M) : Nat × Z80M :=
  match ed_op with
  | 0x40 =>
      let s1 := { s with cpu := z80_set_B s.cpu (ports s.cpu.bc % 256) }
      (12, update_flags_szp s1 ((s1.cpu.bc >>> 8) &&& 0xFF))
  | 0x41 => (12, s)
  | 0x48 =>
      let s1 := { s with cpu := z80_set_C s.cpu (ports s.cpu.bc % 256) }
      (12, update_flags_szp s1 (s1.cpu.bc &&& 0xFF))
  | 0x49 => (12, s)
  | 0x50 =>
      let s1 := { s with cpu := z80_set_D s.cpu (ports s.cpu.bc % 256) }
      (12, update_flags_szp s1 ((s1.cpu.de >>> 8) &&& 0xFF))
  | 0x51 => (12, s)
  | 0x56 => (8, { s with cpu := { s.cpu with interrupt_mode := 1 } })
  | 0x5E => (8, { s with cpu := { s.cpu with interrupt_mode := 2 } })
  | 0x78 =>
      let s1 := { s with cpu := z80_set_A s.cpu (ports s.cpu.bc % 256) }
      (12, update_flags_szp s1 ((s1.cpu.af >>> 8) &&& 0xFF))
  | 0x79 => (12, s)
  | 0xB0 =>
      let s1 := write_mem s s.cpu.de (read_mem s s.cpu.hl)
      let c := s1.cpu
      let c1 := { c with
        hl := (c.hl + 1) % 65536
        de := (c.de + 1) % 65536
        bc := (c.bc + 65535) % 65536 }
      if c1.bc ≠ 0 then
        (21, { s1 with cpu := { c1 with pc := (c1.pc + 65534) % 65536 } })
      else
        (16, { s1 with cpu := c1 })
  | _ => (8, s)

/-- The body of the big opcode switch of `z80_step` (z80.c lines 119-304),
after the opcode byte has been fetched.  Returns the branch cycle count and
the resulting state. -/
def z80_exec (ports : Nat → Nat) (opcode : Nat) (s : Z80M) : Nat × Z80M :=
  match opcode with
  | 0x00 => (4, s)
  | 0x01 =>
      let (lo, s1) := fetch s
      let (hi, s2) := fetch s1
      (10, { s2 with cpu := { s2.cpu with bc := lo ||| (hi <<< 8) } })
  | 0x06 =>
      let (v, s1) := fetch s
      (7, { s1 with cpu := z80_set_B s1.cpu v })
  | 0x0E =>
      let (v, s1) := fetch s
      (7, { s1 with cpu := z80_set_C s1.cpu v })
  | 0x11 =>
      let (lo, s1) := fetch s
      let (hi, s2) := fetch s1
      (10, { s2 with cpu := { s2.cpu with de := lo ||| (hi <<< 8) } })
  | 0x16 =>
      let (v, s1) := fetch s
      (7, { s1 with cpu := z80_set_D s1.cpu v })
  | 0x1E =>
      let (v, s1) := fetch s
      (7, { s1 with cpu := z80_set_E s1.cpu v })
  | 0x21 =>
      let (lo, s1) := fetch s
      let (hi, s2) := fetch s1
      (10, { s2 with cpu := { s2.cpu with hl := lo ||| (hi <<< 8) } })
  | 0x26 =>
      let (v, s1) := fetch s
      (7, { s1 with cpu := z80_set_H s1.cpu v })
  | 0x2E =>
      let (v, s1) := fetch s
      (7, { s1 with cpu := z80_set_L s1.cpu v })
  | 0x31 =>
      let (lo, s1) := fetch s
      let (hi, s2) := fetch s1
      (10, { s2 with cpu := { s2.cpu with sp := lo ||| (hi <<< 8) } })
  | 0x3E =>
      let (v, s1) := fetch s
      (7, { s1 with cpu := z80_set_A s1.cpu v })
  | 0x76 => (4, { s with cpu := { s.cpu with halted := true } })
  | 0xC3 =>
      let (lo, s1) := fetch s
      let (hi, s2) := fetch s1
      (10, { s2 with cpu := { s2.cpu with pc := lo ||| (hi <<< 8) } })
  | 0xC9 =>
      let (v, s1) := pop s
      (10, { s1 with cpu := { s1.cpu with pc := v % 65536 } })
  | 0xCD =>
      let (lo, s1) := fetch s
      let (hi, s2) := fetch s1
      let addr := lo ||| (hi <<< 8)
      let s3 := push s2 s2.cpu.pc
      (17, { s3 with cpu := { s3.cpu with pc := addr } })
  | 0xD3 =>
      let (_, s1) := fetch s
      (11, s1)
  | 0xDB =>
      let (p, s1) := fetch s
      (11, { s1 with cpu := z80_set_A s1.cpu (ports p % 256) })
  | 0xED =>
      let (ed_op, s1) := fetch s
      z80_exec_ed ports ed_op s1
  | 0xF3 => (4, { s with cpu := { s.cpu with iff1 := false, iff2 := false } })
  | 0xFB => (4, { s with cpu := { s.cpu with iff1 := true, iff2 := true } })
  | _ => (4, s)

/-- `z80_step` (z80.c lines 110-308).  When halted it returns 4 cycles at
once, before the fetch and *before* the final `cpu->cycles += cycles`
accumulation; otherwise it fetches, dispatches, and accumulates the branch
cycle count into the 32-bit cycle counter. -/
def z80_step (ports : Nat → Nat) (s : Z80M) : Nat × Z80M :=
  if s.cpu.halted then (4, s)
  else
    let (opcode, s1) := fetch s
    let (c, s2) := z80_exec ports opcode s1
    (c, { s2 with cpu := { s2.cpu with cycles := (s2.cpu.cycles + c) % 4294967296 } })

/-- `k` iterations of the body of the `while (cpu->cycles < target)` loop of
`z80_step_n` (z80.c lines 311-316). -/
def z80_step_iter (ports : Nat → Nat) : Nat → Z80M → Z80M
  | 0, s => s
  | k + 1, s => z80_step_iter ports k (z80_step ports s).2

/-! ### AY-3-8912 register file (src/ay/ay.c) -/

/-- One tone generator of `ay_state_t`. -/
structure AyTone where
  counter : Nat
  period : Nat
  output : Nat
  deriving Repr, DecidableEq

/-- The noise generator of `ay_state_t`. -/
structure AyNoise where
  counter : Nat
  period : Nat
  rng : Nat
  output : Nat
  deriving Repr, DecidableEq

/-- The envelope generator of `ay_state_t`. -/
structure AyEnvelope where
  counter : Nat
  period : Nat
  shape : Nat
  step : Nat
  holding : Bool
  running : Bool
  deriving Repr, DecidableEq

/-- The parts of `ay_state_t` (ay.c lines 34-79) that the register
interface touches: the sixteen registers, the selected index, and the
derived generator state updated by `ay_write_reg`. -/
structure Ay where
  regs : List Nat
  selected_reg : Nat
  tone0 : AyTone
  tone1 : AyTone
  tone2 : AyTone
  noise : AyNoise
  envelope : AyEnvelope
  deriving Repr, DecidableEq

/-- `ay_reset` (ay.c lines 128-155) on the register-file part of the state:
all registers zero, selected register 0, tone outputs 1, noise RNG 1,
envelope cleared. -/
def ay_reset : Ay :=
  { regs := List.replicate 16 0
    selected_reg := 0
    tone0 := { counter := 0, period := 0, output := 1 }
    tone1 := { counter := 0, period := 0, output := 1 }
    tone2 := { counter := 0, period := 0, output := 1 }
    noise := { counter := 0, period := 0, rng := 1, output := 1 }
    envelope := { counter := 0, period := 0, shape := 0, step := 0,
                  holding := false, running := false } }

/-- Register read from the stored array (`ay.regs[reg]`). -/
def ay_reg (a : Ay) (r : Nat) : Nat := a.regs.getD r 0

/-- `ay_write_reg` (ay.c lines 161-206): registers 16 and above are ignored;
otherwise the raw byte is stored in `regs[reg]` and the derived tone /
noise / envelope state is refreshed, with the masks applied only to the
derived state (noise period `& 0x1F`, envelope shape `& 0x0F`). -/
def ay_write_reg (a : Ay) (reg v : Nat) : Ay :=
  if 16 ≤ reg then a
  else
    let a1 := { a with regs := a.regs.set reg v }
    if reg = 0 ∨ reg = 1 then
      let p := ((ay_reg a1 1) <<< 8) ||| ay_reg a1 0
      { a1 with tone0 := { a1.tone0 with period := if p = 0 then 1 else p } }
    else if reg = 2 ∨ reg = 3 then
      let p := ((ay_reg a1 3) <<< 8) ||| ay_reg a1 2
      { a1 with tone1 := { a1.tone1 with period := if p = 0 then 1 else p } }
    else if reg = 4 ∨ reg = 5 then
      let p := ((ay_reg a1 5) <<< 8) ||| ay_reg a1 4
      { a1 with tone2 := { a1.tone2 with period := if p = 0 then 1 else p } }
    else if reg = 6 then
      let p := v &&& 0x1F
      { a1 with noise := { a1.noise with period := if p = 0 then 1 else p } }
    else if reg = 13 then
      { a1 with envelope := { a1.envelope with
          shape := v &&& 0x0F, step := 0, holding := false,
          running := true, counter := 0 } }
    else if reg = 11 ∨ reg = 12 then
      let p := ((ay_reg a1 12) <<< 8) ||| ay_reg a1 11
      { a1 with envelope := { a1.envelope with period := if p = 0 then 1 else p } }
    else a1

/-- `ay_read_reg` (ay.c lines 208-220): indices 16 and above give 0xFF, the
write-only I/O ports 14 and 15 give 0xFF, everything else returns the
stored register byte unmasked. -/
def ay_read_reg (a : Ay) (reg : Nat) : Nat :=
  if 16 ≤ reg then 0xFF
  else if reg = 14 ∨ reg = 15 then 0xFF
  else ay_reg a reg

/-! ### TRD images (src/disk/trd.c) -/

/-- The in-memory view of a mounted `trd_image_t`: geometry, the read-only
and modified flags, and the backing file bytes. -/
structure Trd where
  read_only : Bool
  modified : Bool
  tracks : Nat
  sides : Nat
  data : List Nat
  deriving Repr, DecidableEq

/-- `trd_get_offset` (trd.c lines 10-24): -1 (here `none`) for any
out-of-range coordinate, otherwise the byte offset of the sector. -/
def trd_get_offset (img : Trd) (track head sector : Nat) : Option Nat :=
  if img.tracks ≤ track ∨ img.sides ≤ head ∨ 16 ≤ sector then none
  else some (track * img.sides * 4096 + head * 4096 + sector * 256)

/-- `trd_read_sector` (trd.c lines 132-142): `none` models returning false
with the caller's buffer untouched; on success the 256 sector bytes are
returned.  The fread length check requires the whole sector to lie inside
the file. -/
def trd_read_sector (img : Trd) (track head sector : Nat) : Option (List Nat) :=
  match trd_get_offset img track head sector with
  | none => none
  | some off =>
      if off + 256 ≤ img.data.length then some ((img.data.drop off).take 256)
      else none

/-- Overwrite `n` bytes of `data` starting at `off` with `buf` (the effect
of fseek + fwrite; a seek past the end zero-fills the gap as POSIX does). -/
def write_bytes (data : List Nat) (off : Nat) (buf : List Nat) : List Nat :=
  data.take off ++ List.replicate (off - data.length) 0 ++ buf ++
    data.drop (off + buf.length)

/-- `trd_write_sector` (trd.c lines 145-160): false without any file access
when the image is read-only or the coordinates are out of range; otherwise
the 256 bytes are written and the modified flag is set. -/
def trd_write_sector (img : Trd) (track head sector : Nat) (buf : List Nat) :
    Bool × Trd :=
  if img.read_only then (false, img)
  else
    match trd_get_offset img track head sector with
    | none => (false, img)
    | some off =>
        (true, { img with data := write_bytes img.data off (buf.take 256),
                          modified := true })

/-! ### SCL to TRD conversion (src/disk/scl.c, src/minzx.c) -/

/-- The `read_only` argument passed to `trd_open` for the converted image at
scl.c line 154 (`trd_open(temp_filename, false)`).  The wrapper struct sets
`scl->read_only = true` (line 171), but `main` attaches the underlying TRD,
`scl_get_trd(img)`, to the FDC (minzx.c line 1707), and that image carries
this flag. -/
def scl_converted_trd_read_only : Bool := false

/-! ### WD1793 FDC (src/disk/fdc.c) -/

/-- `fdc_state_t`. -/
inductive FdcSt
  | idle
  | busy
  | readData
  | writeData
  deriving Repr, DecidableEq

/-- `fdc_t` with the status byte split into its named bits
(FDC_STATUS_BUSY 0x01, DRQ 0x02, LOST_DATA 0x04, CRC_ERROR 0x08, RNF 0x10,
WRITE_PROT 0x40, NOT_READY 0x80) and the drive array holding the mounted
image states.  The IRQ/DRQ callbacks have no effect on this state. -/
structure Fdc where
  st_busy : Bool
  st_drq : Bool
  st_lost_data : Bool
  st_crc_error : Bool
  st_rnf : Bool
  st_wprot : Bool
  st_not_ready : Bool
  track : Nat
  sector : Nat
  data : Nat
  command : Nat
  control : Nat
  current_drive : Nat
  current_side : Nat
  state : FdcSt
  delay_tstates : Nat
  sector_buffer : List Nat
  buffer_pos : Nat
  buffer_len : Nat
  drives : Nat → Option Trd

/-- The status byte as returned by reading FDC_PORT_STATUS. -/
def fdc_status_byte (f : Fdc) : Nat :=
  (if f.st_busy then 0x01 else 0) + (if f.st_drq then 0x02 else 0) +
  (if f.st_lost_data then 0x04 else 0) + (if f.st_crc_error then 0x08 else 0) +
  (if f.st_rnf then 0x10 else 0) + (if f.st_wprot then 0x40 else 0) +
  (if f.st_not_ready then 0x80 else 0)

/-- `fdc_init` (fdc.c lines 10-16): everything zeroed, then status :=
NOT_READY, state idle, drive and side 0. -/
def fdc_init : Fdc :=
  { st_busy := false, st_drq := false, st_lost_data := false
    st_crc_error := false, st_rnf := false, st_wprot := false
    st_not_ready := true
    track := 0, sector := 0, data := 0, command := 0, control := 0
    current_drive := 0, current_side := 0
    state := FdcSt.idle
    delay_tstates := 0
    sector_buffer := List.replicate 256 0
    buffer_pos := 0, buffer_len := 0
    drives := fun _ => none }

/-- `fdc_attach_image` (fdc.c lines 32-41). -/
def fdc_attach_image (f : Fdc) (drive : Nat) (img : Option Trd) : Fdc :=
  if 4 ≤ drive then f
  else
    let f1 := { f with drives := fun d => if d = drive then img else f.drives d }
    match img with
    | some _ => { f1 with st_not_ready := false }
    | none => f1

/-- `fdc_detach_image` (fdc.c lines 44-59). -/
def fdc_detach_image (f : Fdc) (drive : Nat) : Fdc :=
  if 4 ≤ drive then f
  else
    let f1 := { f with drives := fun d => if d = drive then none else f.drives d }
    if (f1.drives 0).isNone ∧ (f1.drives 1).isNone ∧ (f1.drives 2).isNone ∧
        (f1.drives 3).isNone then
      { f1 with st_not_ready := true }
    else f1

/-- `fdc_execute_command` (fdc.c lines 67-194).  The command byte is stored,
BUSY is set and DRQ/LOST_DATA/CRC_ERROR/RNF are cleared before dispatching
on `cmd & 0xF0`. -/
def fdc_execute_command (f : Fdc) (cmd : Nat) : Fdc :=
  let c := cmd % 256
  let f := { f with command := c, st_busy := true, st_drq := false,
                    st_lost_data := false, st_crc_error := false,
                    st_rnf := false }
  let ct := c &&& 0xF0
  if ct = 0x00 then
    { f with track := 0, delay_tstates := 3500 * 6, state := FdcSt.busy }
  else if ct = 0x10 then
    let diff := if f.track < f.data then f.data - f.track else f.track - f.data
    { f with track := f.data, delay_tstates := 3500 * (6 + diff),
             state := FdcSt.busy }
  else if ct = 0x20 ∨ ct = 0x40 then
    let f1 := if ct = 0x40 ∧ f.track < 79 then { f with track := f.track + 1 }
              else f
    { f1 with delay_tstates := 3500 * 6, state := FdcSt.busy }
  else if ct = 0x60 then
    let f1 := if 0 < f.track then { f with track := f.track - 1 } else f
    { f1 with delay_tstates := 3500 * 6, state := FdcSt.busy }
  else if ct = 0x80 then
    match f.drives f.current_drive with
    | none =>
        { f with st_rnf := true, st_busy := false, state := FdcSt.idle }
    | some img =>
        let sector_num := if 0 < f.sector then f.sector - 1 else 0
        match trd_read_sector img f.track f.current_side sector_num with
        | some bytes =>
            { f with sector_buffer := bytes, buffer_pos := 0,
                     buffer_len := 256, state := FdcSt.readData,
                     delay_tstates := 3500 * 10, st_drq := true }
        | none =>
            { f with st_rnf := true, st_busy := false, state := FdcSt.idle }
  else if ct = 0xA0 then
    match f.drives f.current_drive with
    | none =>
        { f with st_rnf := true, st_busy := false, state := FdcSt.idle }
    | some img =>
        if img.read_only then
          { f with st_wprot := true, st_busy := false, state := FdcSt.idle }
        else
          { f with buffer_pos := 0, buffer_len := 256,
                   state := FdcSt.writeData, delay_tstates := 3500 * 10,
                   st_drq := true }
  else if ct = 0xC0 then
    let buf := (((f.sector_buffer.set 0 f.track).set 1 f.current_side).set 2
                  f.sector).set 3 1
    { f with sector_buffer := buf, buffer_pos := 0, buffer_len := 6,
             state := FdcSt.readData, delay_tstates := 3500 * 10,
             st_drq := true }
  else if ct = 0xD0 then
    { f with st_busy := false, state := FdcSt.idle, delay_tstates := 0 }
  else
    { f with st_busy := false, state := FdcSt.idle }

/-- `fdc_port_in` (fdc.c lines 197-230): returns the port value and the new
state (only the data-port read mutates the FDC). -/
def fdc_port_in (f : Fdc) (port : Nat) : Nat × Fdc :=
  let pl := port &&& 0xFF
  if pl = 0x1F then (fdc_status_byte f, f)
  else if pl = 0x3F then (f.track, f)
  else if pl = 0x5F then (f.sector, f)
  else if pl = 0x7F then
    if f.state = FdcSt.readData ∧ f.buffer_pos < f.buffer_len then
      let d := f.sector_buffer.getD f.buffer_pos 0
      let pos := f.buffer_pos + 1
      let f1 := { f with data := d, buffer_pos := pos }
      if f1.buffer_len ≤ pos then
        (d, { f1 with st_drq := false, st_busy := false, state := FdcSt.idle })
      else (d, f1)
    else (f.data, f)
  else if pl = 0xFF then (f.control, f)
  else (0xFF, f)

/-- `fdc_port_out` (fdc.c lines 233-288). -/
def fdc_port_out (f : Fdc) (port val : Nat) : Fdc :=
  let pl := port &&& 0xFF
  let v := val % 256
  if pl = 0x1F then fdc_execute_command f v
  else if pl = 0x3F then { f with track := v }
  else if pl = 0x5F then { f with sector := v }
  else if pl = 0x7F then
    if f.state = FdcSt.writeData ∧ f.buffer_pos < f.buffer_len then
      let buf := f.sector_buffer.set f.buffer_pos v
      let pos := f.buffer_pos + 1
      let f1 := { f with sector_buffer := buf, buffer_pos := pos }
      if f1.buffer_len ≤ pos then
        let drives2 :=
          match f1.drives f1.current_drive with
          | some img =>
              if img.read_only then f1.drives
              else
                let sector_num := if 0 < f1.sector then f1.sector - 1 else 0
                let img2 := (trd_write_sector img f1.track f1.current_side
                               sector_num buf).2
                fun d => if d = f1.current_drive then some img2 else f1.drives d
          | none => f1.drives
        { f1 with drives := drives2, st_drq := false, st_busy := false,
                  state := FdcSt.idle }
      else f1
    else { f with data := v }
  else if pl = 0xFF then
    let f1 := { f with control := v, current_drive := v &&& 0x03,
                       current_side := if v &&& 0x10 ≠ 0 then 1 else 0 }
    match f1.drives f1.current_drive with
    | some _ => { f1 with st_not_ready := false }
    | none => { f1 with st_not_ready := true }
  else f

/-- `fdc_step` (fdc.c lines 291-306). -/
def fdc_step (f : Fdc) (tstates : Nat) : Fdc :=
  if 0 < f.delay_tstates then
    if f.delay_tstates ≤ tstates then
      let f1 := { f with delay_tstates := 0 }
      if f1.state = FdcSt.busy then
        { f1 with st_busy := false, state := FdcSt.idle }
      else f1
    else { f with delay_tstates := f.delay_tstates - tstates }
  else f

/-- One interaction with the FDC, as listed in the claim: a direct command,
a port read, a port write (which covers commands issued through port 0x1F),
a timing step, or attaching/detaching an image. -/
inductive FdcOp
  | exec (cmd : Nat)
  | portIn (port : Nat)
  | portOut (port val : Nat)
  | step (tstates : Nat)
  | attach (drive : Nat) (img : Option Trd)
  | detach (drive : Nat)

/-- Apply one `FdcOp`. -/
def fdc_apply (f : Fdc) : FdcOp → Fdc
  | FdcOp.exec cmd => fdc_execute_command f cmd
  | FdcOp.portIn port => (fdc_port_in f port).2
  | FdcOp.portOut port val => fdc_port_out f port val
  | FdcOp.step ts => fdc_step f ts
  | FdcOp.attach d img => fdc_attach_image f d img
  | FdcOp.detach d => fdc_detach_image f d

/-- The DRQ invariant of the spec: DRQ is set exactly in the ReadData /
WriteData states with an unfinished buffer transfer. -/
def fdc_drq_inv (f : Fdc) : Prop :=
  f.st_drq = true ↔
    ((f.state = FdcSt.readData ∨ f.state = FdcSt.writeData) ∧
      f.buffer_pos < f.buffer_len)

/-! ### Unified TAP/TZX tape engine (src/minzx.c) -/

/-- `tape_fmt_t`. -/
inductive TapeFmt
  | nofmt
  | tap
  | tzx
  deriving Repr, DecidableEq

/-- `pulse_phase_t`. -/
inductive Phase
  | idle
  | pilot
  | sync1
  | sync2
  | data
  | pureTone
  | pulseSeq
  | directRec
  | pause
  deriving Repr, DecidableEq

/-- `tape_t` (minzx.c lines 122-180).  `FILE* f` becomes the flag `has_f`
together with the byte list `file` and the cursor `pos` (the C code keeps
`file_pos` in lockstep with the stream position); `file_size` is
`file.length`.  The `speed` double is only ever assigned 1.0 (minzx.c line
1578), and `(uint32_t)(x / 1.0)` is exactly `x` for every 32-bit `x`, so
the TAP speed divisions are elided.  `pulses_left` and `cur_bit` are C
`int`s and are kept as `Int`. -/
structure Tape where
  has_f : Bool
  file : List Nat
  pos : Nat
  fmt : TapeFmt
  phase : Phase
  pulses_left : Int
  halfwave_ts : Nat
  next_edge_cycle : Nat
  level : Bool
  blk : List Nat
  blk_len : Nat
  data_pos : Nat
  cur_byte : Nat
  cur_bit : Int
  pulse_of_bit : Nat
  t_pilot : Nat
  t_sync1 : Nat
  t_sync2 : Nat
  t_bit0 : Nat
  t_bit1 : Nat
  pilot_pulses : Nat
  used_bits_last : Nat
  pause_ms : Nat
  pulse_seq : List Nat
  pulse_seq_n : Nat
  pulse_seq_i : Nat
  dr_tstates_per_sample : Nat
  dr_total_bits : Nat
  dr_bit_index : Nat
  csw_freq_hz : Nat
  csw_compression : Nat
  csw_data_len : Nat
  playing : Bool
  initial_level_known : Bool
  initial_level : Bool
  loop_pos : Nat
  loop_remaining : Nat
  loop_active : Bool
  group_depth : Nat
  deriving Repr, DecidableEq

/-- MS_TO_TSTATES (minzx.c line 114). -/
def ms_to_tstates (ms : Nat) : Nat := ms * 3500

/-- One byte of the tape file at an absolute position; past the end of the
file `rd_u8` sees EOF and returns 0 (minzx.c line 110). -/
def file_byte (t : Tape) (i : Nat) : Nat := t.file.getD i 0 % 256

/-- `rd_u8` with the `file_pos` increment done by every caller. -/
def rd_u8 (t : Tape) : Nat × Tape :=
  (file_byte t t.pos, { t with pos := t.pos + 1 })

/-- `rd_u16` (little endian). -/
def rd_u16 (t : Tape) : Nat × Tape :=
  let (lo, t1) := rd_u8 t
  let (hi, t2) := rd_u8 t1
  (lo ||| (hi <<< 8), t2)

/-- `rd_u24` (little endian). -/
def rd_u24 (t : Tape) : Nat × Tape :=
  let (b0, t1) := rd_u8 t
  let (b1, t2) := rd_u8 t1
  let (b2, t3) := rd_u8 t2
  (b0 ||| (b1 <<< 8) ||| (b2 <<< 16), t3)

/-- `rd_u32` (little endian). -/
def rd_u32 (t : Tape) : Nat × Tape :=
  let (b0, t1) := rd_u8 t
  let (b1, t2) := rd_u8 t1
  let (b2, t3) := rd_u8 t2
  let (b3, t4) := rd_u8 t3
  (b0 ||| (b1 <<< 8) ||| (b2 <<< 16) ||| (b3 <<< 24), t4)

/-- `fread(buf, 1, n, f)` into a fresh block buffer, with the uniform
`file_pos += n` the TZX loaders perform whether or not the stream was long
enough (short reads leave the tail of the C buffer unread; those bytes are
modelled as 0). -/
def read_bytes (t : Tape) (n : Nat) : List Nat × Tape :=
  ((List.range n).map (fun k => file_byte t (t.pos + k)), { t with pos := t.pos + n })

/-- `halfwave_for_bit` (minzx.c line 196). -/
def halfwave_for_bit (t : Tape) (bit1 : Bool) : Nat :=
  if bit1 then t.t_bit1 else t.t_bit0

/-- `tap_read_next_block` (minzx.c lines 356-387): read the 2-byte length
and payload of the next TAP block and install the standard timings; returns
false (leaving the playback fields alone) at end of file, on a zero length
or on a short read. -/
def tap_read_next_block (t : Tape) : Bool × Tape :=
  if t.has_f = false then (false, t)
  else if t.file.length ≤ t.pos then (false, t)
  else if t.file.length < t.pos + 2 then (false, t)
  else
    let (len, t1) := rd_u16 t
    if len = 0 then (false, t1)
    else if t1.file.length < t1.pos + len then (false, t1)
    else
      let (bytes, t2) := read_bytes t1 len
      (true, { t2 with
        blk := bytes, blk_len := len
        t_pilot := 2168, t_sync1 := 667, t_sync2 := 735
        t_bit0 := 855, t_bit1 := 1710
        used_bits_last := 8
        pilot_pulses := if bytes.getD 0 0 = 0 then 8063 else 3223
        pause_ms := 1000 })

/-- `start_block_emission` (minzx.c lines 389-400). -/
def start_block_emission (now : Nat) (t : Tape) : Tape :=
  { t with
    phase := Phase.pilot
    pulses_left := (t.pilot_pulses * 2 : Nat)
    halfwave_ts := t.t_pilot
    next_edge_cycle := now + t.t_pilot
    level := if t.initial_level_known then t.initial_level else true
    data_pos := 0
    cur_bit := 7
    pulse_of_bit := 0 }

/-- `start_pause` (minzx.c lines 402-407): enter the Pause phase with the
EAR level forced high. -/
def start_pause (now : Nat) (t : Tape) : Tape :=
  { t with
    phase := Phase.pause
    next_edge_cycle := now + ms_to_tstates t.pause_ms
    level := true }

/-- Set the half-wave length for the data bit currently selected by
`cur_byte` / `cur_bit` and schedule the next edge after it (the tail shared
by the TAP data branch, minzx.c lines 452-455). -/
def tap_data_emit (t : Tape) : Tape :=
  let b := (t.cur_byte >>> t.cur_bit.toNat) &&& 1 ≠ 0
  let hw := halfwave_for_bit t b
  { t with halfwave_ts := hw, next_edge_cycle := t.next_edge_cycle + hw }

/-- One iteration of the `while (now_cycle >= tape.next_edge_cycle)` loop
of `tap_ear_level_until` (minzx.c lines 411-467): toggle the level
unconditionally, then dispatch on the phase. -/
def tap_process_edge (now : Nat) (t : Tape) : Tape :=
  let t := { t with level := !t.level }
  match t.phase with
  | Phase.pilot =>
      let pl := t.pulses_left - 1
      if 0 < pl then
        { t with pulses_left := pl,
                 next_edge_cycle := t.next_edge_cycle + t.halfwave_ts }
      else
        { t with pulses_left := pl, phase := Phase.sync1,
                 halfwave_ts := t.t_sync1,
                 next_edge_cycle := t.next_edge_cycle + t.t_sync1 }
  | Phase.sync1 =>
      { t with phase := Phase.sync2, halfwave_ts := t.t_sync2,
               next_edge_cycle := t.next_edge_cycle + t.t_sync2 }
  | Phase.sync2 =>
      let cb := t.blk.getD 0 0 % 256
      let t1 := { t with phase := Phase.data, data_pos := 1, cur_bit := 7,
                         pulse_of_bit := 0, cur_byte := cb }
      let hw := halfwave_for_bit t1 ((cb &&& 0x80) ≠ 0)
      { t1 with halfwave_ts := hw,
                next_edge_cycle := t1.next_edge_cycle + hw }
  | Phase.data =>
      let pob := t.pulse_of_bit ^^^ 1
      if pob = 1 then
        { t with pulse_of_bit := pob,
                 next_edge_cycle := t.next_edge_cycle + t.halfwave_ts }
      else
        let cbit := t.cur_bit - 1
        if cbit < 0 then
          if t.blk_len ≤ t.data_pos then
            start_pause now { t with pulse_of_bit := pob, cur_bit := cbit }
          else
            tap_data_emit
              { t with pulse_of_bit := pob, cur_bit := 7,
                       cur_byte := t.blk.getD t.data_pos 0 % 256,
                       data_pos := t.data_pos + 1 }
        else
          tap_data_emit { t with pulse_of_bit := pob, cur_bit := cbit }
  | Phase.pause =>
      match tap_read_next_block t with
      | (false, t2) =>
          { t2 with phase := Phase.idle, playing := false, level := true }
      | (true, t2) => start_block_emission now t2
  | _ => t

/-- The catch-up loop of `tap_ear_level_until`, with explicit fuel; the
second component is true when the loop exited through its own conditions
(guard false or IDLE break) rather than by exhausting the fuel. -/
def tap_loop : Nat → Nat → Tape → Tape × Bool
  | 0, _, t => (t, false)
  | k + 1, now, t =>
      if t.next_edge_cycle ≤ now then
        let t2 := tap_process_edge now t
        if t2.phase = Phase.idle then (t2, true) else tap_loop k now t2
      else (t, true)

/-- `tap_ear_level_until` (minzx.c lines 409-470): result state, returned
EAR level, and loop-completion flag. -/
def tap_ear_level_until (fuel now : Nat) (t : Tape) : Tape × Bool × Bool :=
  if t.playing = false ∨ t.has_f = false ∨ t.phase = Phase.idle then
    (t, true, true)
  else
    let (t2, done) := tap_loop fuel now t
    (t2, t2.level, done)

/-- `ceil_log2_u16` (minzx.c lines 475-480): doubling loop with an explicit
iteration bound (the C `int` argument here is at most 256, so 32 rounds
always suffice). -/
def ceil_log2_go : Nat → Nat → Nat → Nat → Nat
  | 0, _, _, n => n
  | fuel + 1, p, v, n => if p < v then ceil_log2_go fuel (p * 2) v (n + 1) else n

/-- `ceil_log2_u16`. -/
def ceil_log2_u16 (v : Nat) : Nat :=
  if v ≤ 1 then 1 else ceil_log2_go 32 1 v 0

/-- `tzx19_symdef_t` (minzx.c lines 482-486): polarity flags plus the
nonzero half-waves of the symbol. -/
structure Tzx19Sym where
  flags : Nat
  pulses : List Nat
  deriving Repr, DecidableEq

instance : Inhabited Tzx19Sym := ⟨{ flags := 0, pulses := [] }⟩

/-- `push_or_merge_halfwave` (minzx.c lines 489-504): a zero duration adds
nothing; merging extends the previous half-wave saturating at 65535;
otherwise the duration is appended. -/
def push_or_merge_halfwave (seq : List Nat) (dur : Nat) (merge : Bool) :
    List Nat :=
  if dur = 0 then seq
  else if merge ∧ 0 < seq.length then
    seq.dropLast ++ [min (seq.getLast?.getD 0 + dur) 65535]
  else seq ++ [dur]

/-- Read the NPP/NPD pulse words of one symbol definition, keeping the
nonzero ones in order (minzx.c lines 874-877 and 919-922). -/
def read_sym_pulses : Nat → Tape → List Nat × Tape
  | 0, t => ([], t)
  | n + 1, t =>
      let (d, t1) := rd_u16 t
      let (rest, t2) := read_sym_pulses n t1
      ((if d ≠ 0 then [d] else []) ++ rest, t2)

/-- Read a symbol alphabet of the given size (minzx.c lines 869-878 and
914-923). -/
def read_sym_defs : Nat → Nat → Tape → List Tzx19Sym × Tape
  | 0, _, t => ([], t)
  | n + 1, npulses, t =>
      let (fl, t1) := rd_u8 t
      let (ps, t2) := read_sym_pulses npulses t1
      let (rest, t3) := read_sym_defs n npulses t2
      ({ flags := fl, pulses := ps } :: rest, t3)

/-- Push one symbol's half-wave list, merging only the first half-wave when
requested (`(p==0) && merge_first`, minzx.c lines 899-902). -/
def tzx19_push_list (seq : List Nat) : List Nat → Bool → List Nat
  | [], _ => seq
  | d :: rest, mf => tzx19_push_list (push_or_merge_halfwave seq d mf) rest false

/-- Emit one 0x19 symbol into the half-wave sequence, computing the merge
decision from the polarity flags and the parity of the emitted half-waves
(minzx.c lines 886-903 and 943-956). -/
def tzx19_emit_symbol (init_level : Bool) (seq : List Nat) (sym : Tzx19Sym) :
    List Nat :=
  let pol := sym.flags &&& 0x03
  let current_level := if seq.length % 2 = 0 then init_level else !init_level
  let merge_first :=
    if pol = 0x01 then 0 < seq.length
    else if pol = 0x02 then 0 < seq.length ∧ current_level = false
    else if pol = 0x03 then 0 < seq.length ∧ current_level = true
    else false
  tzx19_push_list seq sym.pulses merge_first

/-- Emit `rep` copies of a symbol (the PRLE repetition loop). -/
def tzx19_emit_rep (init_level : Bool) (sym : Tzx19Sym) :
    Nat → List Nat → List Nat
  | 0, seq => seq
  | r + 1, seq => tzx19_emit_rep init_level sym r (tzx19_emit_symbol init_level seq sym)

/-- The PRLE-encoded pilot/sync stream: TOTP entries of (symbol, repeat)
(minzx.c lines 881-904). -/
def tzx19_pilot_stream (init_level : Bool) (tbl : List Tzx19Sym) (asp : Nat) :
    Nat → Tape → List Nat → List Nat × Tape
  | 0, t, seq => (seq, t)
  | k + 1, t, seq =>
      let (sym, t1) := rd_u8 t
      let (rep, t2) := rd_u16 t1
      let s := tbl.getD (sym % asp) default
      tzx19_pilot_stream init_level tbl asp k t2 (tzx19_emit_rep init_level s rep seq)

/-- The bit-unpacking cursor of the 0x19 data stream (`cur`, `rem_bits`,
`bytes_consumed`). -/
structure BitCursor where
  cur : Nat
  rem_bits : Nat
  consumed : Nat
  deriving Repr, DecidableEq

/-- Read `i` bits MSB-first into an accumulator (minzx.c lines 931-940). -/
def read_bits_acc : Nat → Nat → BitCursor → Tape → Nat × BitCursor × Tape
  | 0, acc, br, t => (acc, br, t)
  | i + 1, acc, br, t =>
      if br.rem_bits = 0 then
        let (c, t1) := rd_u8 t
        read_bits_acc i ((acc <<< 1) ||| ((c >>> 7) &&& 1))
          { cur := c, rem_bits := 7, consumed := br.consumed + 1 } t1
      else
        read_bits_acc i ((acc <<< 1) ||| ((br.cur >>> (br.rem_bits - 1)) &&& 1))
          { br with rem_bits := br.rem_bits - 1 } t

/-- The bit-packed data stream: TOTD symbols of NB bits each (minzx.c lines
930-957). -/
def tzx19_data_stream (init_level : Bool) (tbl : List Tzx19Sym) (asd nb : Nat) :
    Nat → BitCursor → Tape → List Nat → List Nat × BitCursor × Tape
  | 0, br, t, seq => (seq, br, t)
  | k + 1, br, t, seq =>
      let (sym, br1, t1) := read_bits_acc nb 0 br t
      let s := tbl.getD (sym % asd) default
      tzx19_data_stream init_level tbl asd nb k br1 t1 (tzx19_emit_symbol init_level seq s)

/-- Split one CSW duration into 16-bit chunks (minzx.c lines 818-822). -/
def csw_chunks : Nat → List Nat
  | 0 => []
  | ts + 1 =>
      let tt := ts + 1
      let chunk := min tt 65535
      chunk :: csw_chunks (tt - chunk)

/-- Convert the raw CSW sample pairs into a half-wave list (minzx.c lines
812-823): the little-endian sample count of each pair is scaled to
T-states (the quotient is truncated to uint32), zero counts are skipped,
and a zero result is bumped to 1. -/
def csw_build (blk : List Nat) (freq : Nat) : Nat → Nat → List Nat
  | 0, _ => []
  | k + 1, i =>
      let samples := (blk.getD (2 * i) 0 % 256) ||| ((blk.getD (2 * i + 1) 0 % 256) <<< 8)
      if samples = 0 then csw_build blk freq k (i + 1)
      else
        let ts0 := samples * 3500000 / (if freq = 0 then 1 else freq) % 4294967296
        let ts := if ts0 = 0 then 1 else ts0
        csw_chunks ts ++ csw_build blk freq k (i + 1)

/-- The field loop of the 0x32 Archive Info block (minzx.c lines
1061-1084): each field advances the cursor by 2 + its stated length, bounded
by the block end. -/
def tzx32_fields (endp : Nat) : Nat → Tape → Tape
  | 0, t => t
  | i + 1, t =>
      if endp ≤ t.pos then t
      else if endp < t.pos + 1 then t
      else
        let (_, t1) := rd_u8 t
        if endp < t1.pos + 1 then t1
        else
          let (slen, t2) := rd_u8 t1
          tzx32_fields endp i { t2 with pos := t2.pos + slen }

/-- Read `n` consecutive little-endian u16 values (the 0x13 pulse list,
minzx.c line 739). -/
def read_u16_list : Nat → Tape → List Nat × Tape
  | 0, t => ([], t)
  | n + 1, t =>
      let (v, t1) := rd_u16 t
      let (rest, t2) := read_u16_list n t1
      (v :: rest, t2)

/-- `tzx_prepare_standard_or_turbo` (minzx.c lines 511-539). -/
def tzx_prepare_standard_or_turbo (now : Nat) (t : Tape) : Tape :=
  let t := { t with level := if t.initial_level_known then t.initial_level else true }
  if 0 < t.pilot_pulses ∧ 0 < t.t_pilot then
    { t with phase := Phase.pilot, pulses_left := (t.pilot_pulses * 2 : Nat),
             halfwave_ts := t.t_pilot, next_edge_cycle := now + t.t_pilot }
  else if 0 < t.t_sync1 then
    { t with phase := Phase.sync1, halfwave_ts := t.t_sync1,
             next_edge_cycle := now + t.t_sync1 }
  else if t.t_bit0 ≠ 0 ∨ t.t_bit1 ≠ 0 then
    let cb := if 0 < t.blk_len then t.blk.getD 0 0 % 256 else 0
    let dp := if 0 < t.blk_len then 1 else 0
    let t1 := { t with phase := Phase.data, data_pos := dp, cur_bit := 7,
                       pulse_of_bit := 0, cur_byte := cb }
    let hw := halfwave_for_bit t1 ((cb &&& 0x80) ≠ 0)
    { t1 with halfwave_ts := hw, next_edge_cycle := now + hw }
  else
    { t with phase := Phase.pause,
             next_edge_cycle := now + ms_to_tstates t.pause_ms }

/-- 0x00 / 0x10 Standard Speed Data (minzx.c lines 679-696): pause, data
length, payload, standard Spectrum timings, pilot count from the flag
byte, then the shared preparation. -/
def tzx_block_std (now : Nat) (t : Tape) : Tape :=
  let (pms, t) := rd_u16 t
  let (dlen, t) := rd_u16 t
  let (bytes, t) := read_bytes t dlen
  tzx_prepare_standard_or_turbo now
    { t with pause_ms := pms, blk := bytes, blk_len := dlen,
             t_pilot := 2168, t_sync1 := 667, t_sync2 := 735,
             t_bit0 := 855, t_bit1 := 1710, used_bits_last := 8,
             pilot_pulses := if 0 < dlen ∧ bytes.getD 0 0 % 256 = 0 then 8063 else 3223 }

/-- 0x02 / 0x12 Pure Tone (minzx.c lines 698-714). -/
def tzx_block_tone (now : Nat) (t : Tape) : Tape :=
  let (tone_len, t) := rd_u16 t
  let (tone_pulses, t) := rd_u16 t
  { t with
    t_pilot := 0, t_sync1 := 0, t_sync2 := 0, t_bit0 := 0, t_bit1 := 0,
    pulse_seq_n := 0, pause_ms := 0, halfwave_ts := tone_len,
    pulses_left := (tone_pulses * 2 : Nat), phase := Phase.pureTone,
    next_edge_cycle := now + tone_len,
    level := if t.initial_level_known then t.initial_level else true }

/-- 0x11 Turbo Speed Data (minzx.c lines 716-733). -/
def tzx_block_turbo (now : Nat) (t : Tape) : Tape :=
  let (tp, t) := rd_u16 t
  let (ts1, t) := rd_u16 t
  let (ts2, t) := rd_u16 t
  let (tb0, t) := rd_u16 t
  let (tb1, t) := rd_u16 t
  let (pp, t) := rd_u16 t
  let (u, t) := rd_u8 t
  let (pms, t) := rd_u16 t
  let (dlen, t) := rd_u24 t
  let (bytes, t) := read_bytes t dlen
  tzx_prepare_standard_or_turbo now
    { t with t_pilot := tp, t_sync1 := ts1, t_sync2 := ts2,
             t_bit0 := tb0, t_bit1 := tb1, pilot_pulses := pp,
             used_bits_last := if u = 0 then 8 else u, pause_ms := pms,
             blk := bytes, blk_len := dlen }

/-- 0x13 Pulse Sequence (minzx.c lines 735-747). -/
def tzx_block_pulse_seq (now : Nat) (t : Tape) : Tape :=
  let (n, t) := rd_u8 t
  let res := read_u16_list n t
  let seqv := res.1
  let t := res.2
  let hw := if 0 < n then seqv.getD 0 0 else 0
  { t with
    pulse_seq := seqv, pulse_seq_n := n, pulse_seq_i := 0, pause_ms := 0,
    phase := Phase.pulseSeq, halfwave_ts := hw,
    next_edge_cycle := now + (if hw ≠ 0 then hw else 1),
    level := if t.initial_level_known then t.initial_level else true }

/-- 0x14 Pure Data (minzx.c lines 749-771). -/
def tzx_block_pure_data (now : Nat) (t : Tape) : Tape :=
  let (tb0, t) := rd_u16 t
  let (tb1, t) := rd_u16 t
  let (u, t) := rd_u8 t
  let (pms, t) := rd_u16 t
  let (dlen, t) := rd_u24 t
  let (bytes, t) := read_bytes t dlen
  let cb := if 0 < dlen then bytes.getD 0 0 % 256 else 0
  let dp := if 0 < dlen then 1 else 0
  let hw := if (cb &&& 0x80) ≠ 0 then tb1 else tb0
  { t with
    blk := bytes, blk_len := dlen,
    t_pilot := 0, t_sync1 := 0, t_sync2 := 0,
    t_bit0 := tb0, t_bit1 := tb1, used_bits_last := u, pause_ms := pms,
    phase := Phase.data, data_pos := dp, cur_bit := 7,
    pulse_of_bit := 0, cur_byte := cb, halfwave_ts := hw,
    level := if t.initial_level_known then t.initial_level else true,
    next_edge_cycle := now + hw }

/-- 0x15 Direct Recording (minzx.c lines 773-789); the uint32 arithmetic
of `(dlen-1)*8 + used` is kept exactly. -/
def tzx_block_direct (now : Nat) (t : Tape) : Tape :=
  let (drts, t) := rd_u16 t
  let (pms, t) := rd_u16 t
  let (u, t) := rd_u8 t
  let (dlen, t) := rd_u24 t
  let (bytes, t) := read_bytes t dlen
  let total := (((dlen + 4294967295) % 4294967296) * 8 +
    (if u = 0 then 8 else u)) % 4294967296
  { t with
    dr_tstates_per_sample := drts, pause_ms := pms,
    blk := bytes, blk_len := dlen, dr_total_bits := total,
    dr_bit_index := 0, phase := Phase.directRec,
    level := if t.initial_level_known then t.initial_level else true,
    next_edge_cycle := now + drts }

/-- 0x18 CSW Recording (minzx.c lines 791-840): raw (compression 0) data
is converted into a half-wave sequence, anything else just pauses. -/
def tzx_block_csw (now : Nat) (t : Tape) : Tape :=
  let (pms, t) := rd_u16 t
  let (freq, t) := rd_u32 t
  let (comp, t) := rd_u8 t
  let (dlen, t) := rd_u32 t
  let (bytes, t) := read_bytes t dlen
  let t := { t with pause_ms := pms, csw_freq_hz := freq,
                    csw_compression := comp, csw_data_len := dlen,
                    blk := bytes }
  if comp = 0 ∧ 2 ≤ dlen then
    let seqv := csw_build bytes freq (dlen / 2) 0
    let n := seqv.length
    let hw := if 0 < n then seqv.getD 0 0 else 1
    { t with
      pulse_seq := seqv, pulse_seq_n := n,
      pulse_seq_i := 0, phase := Phase.pulseSeq, halfwave_ts := hw,
      level := if t.initial_level_known then t.initial_level else true,
      next_edge_cycle := now + hw }
  else
    { t with phase := Phase.pause,
             next_edge_cycle := now + ms_to_tstates pms, level := true }

/-- 0x19 Generalized Data (minzx.c lines 842-1007): header, pilot/sync
alphabet with its PRLE stream, data alphabet with its bit-packed stream,
padding skip, and activation as a half-wave sequence. -/
def tzx_block_gdb (now : Nat) (t : Tape) : Tape :=
  let (blen, t) := rd_u32 t
  let block_end := t.pos + blen
  let (pms, t) := rd_u16 t
  let (totp, t) := rd_u32 t
  let (npp, t) := rd_u8 t
  let (aspx, t) := rd_u8 t
  let (totd, t) := rd_u32 t
  let (npd, t) := rd_u8 t
  let (asdx, t) := rd_u8 t
  let asp := if aspx = 0 then 256 else aspx
  let asd := if asdx = 0 then 256 else asdx
  let t := { t with pause_ms := pms }
  let init_level := if t.initial_level_known then t.initial_level else true
  let pr :=
    if 0 < totp then
      let defs := read_sym_defs asp npp t
      tzx19_pilot_stream init_level defs.1 asp totp defs.2 []
    else ([], t)
  let seq1 := pr.1
  let t := pr.2
  let dr :=
    if 0 < totd then
      let defs := read_sym_defs asd npd t
      let nb := ceil_log2_u16 asd
      let ds := (nb * totd + 7) / 8
      let res :=
        tzx19_data_stream init_level defs.1 asd nb totd
          { cur := 0, rem_bits := 0, consumed := 0 } defs.2 seq1
      let t3 := if res.2.1.consumed < ds then
                  { res.2.2 with pos := res.2.2.pos + (ds - res.2.1.consumed) }
                else res.2.2
      (res.1, t3)
    else
      (seq1, if t.pos < block_end then { t with pos := block_end } else t)
  let seq2 := dr.1
  let t := dr.2
  let n := seq2.length
  let hw := if 0 < n then seq2.getD 0 0 else 1
  { t with
    pulse_seq := seq2, pulse_seq_n := n,
    pulse_seq_i := 0, phase := Phase.pulseSeq, halfwave_ts := hw,
    level := init_level, next_edge_cycle := now + hw }

/-- 0x20 Pause (minzx.c lines 1009-1015): zero stops the tape. -/
def tzx_block_pause20 (now : Nat) (t : Tape) : Bool × Tape :=
  let (ms, t) := rd_u16 t
  if ms = 0 then
    (false, { t with phase := Phase.idle, playing := false, level := true })
  else
    (true, { t with pause_ms := ms, phase := Phase.pause,
                    next_edge_cycle := now + ms_to_tstates ms, level := true })

/-- 0x21 Group Start (minzx.c lines 1017-1030): skip the name, note the
group. -/
def tzx_skip_group_start (t : Tape) : Tape :=
  let (ln, t) := rd_u8 t
  { t with pos := t.pos + ln,
           group_depth := if t.group_depth = 0 then 1 else t.group_depth }

/-- 0x24 Loop Start (minzx.c line 1038). -/
def tzx_skip_loop_start (t : Tape) : Tape :=
  let (cnt, t) := rd_u16 t
  { t with loop_pos := t.pos, loop_remaining := cnt, loop_active := true }

/-- 0x25 Loop End (minzx.c line 1039): rewind while iterations remain. -/
def tzx_step_loop_end (t : Tape) : Tape :=
  if t.loop_active ∧ 1 < t.loop_remaining then
    { t with loop_remaining := t.loop_remaining - 1, pos := t.loop_pos }
  else
    { t with loop_active := false }

/-- 0x2B Set Signal Level (minzx.c line 1042). -/
def tzx_set_level (t : Tape) : Tape :=
  let (lvl, t) := rd_u8 t
  { t with initial_level_known := true, initial_level := lvl ≠ 0 }

/-- 0x30 Text Description (minzx.c line 1044). -/
def tzx_skip_text (t : Tape) : Tape :=
  let (ln, t) := rd_u8 t
  { t with pos := t.pos + ln }

/-- 0x31 Message (minzx.c line 1045). -/
def tzx_skip_message (t : Tape) : Tape :=
  let (_, t) := rd_u8 t
  let (ln, t) := rd_u8 t
  { t with pos := t.pos + ln }

/-- 0x32 Archive Info (minzx.c lines 1047-1090). -/
def tzx_skip_archive (t : Tape) : Tape :=
  let (blen, t) := rd_u16 t
  let endp := min (t.pos + blen) t.file.length
  if endp ≤ t.pos then t
  else
    let (n, t) := rd_u8 t
    let t := tzx32_fields endp n t
    if t.pos < endp then { t with pos := endp } else t

/-- 0x33 Hardware Type (minzx.c line 1092). -/
def tzx_skip_hw (t : Tape) : Tape :=
  let (n, t) := rd_u8 t
  { t with pos := t.pos + 3 * n }

/-- 0x35 Custom Info (minzx.c line 1093). -/
def tzx_skip_custom (t : Tape) : Tape :=
  let t := { t with pos := t.pos + 16 }
  let (l, t) := rd_u32 t
  { t with pos := t.pos + l }

/-- 0x5A Glue (minzx.c line 1094). -/
def tzx_skip_glue (t : Tape) : Tape :=
  let (l, t) := rd_u32 t
  { t with pos := t.pos + l }

/-- `tzx_read_and_prepare_next_block` (minzx.c lines 673-1100), with fuel
for its self-recursion through the informational blocks and the loop
blocks; `none` is fuel exhaustion, `some (ok, t)` is the C return value
together with the mutated engine state.  The malloc-failure and
`tzx19_fail` paths are not modelled (allocation is assumed to succeed, and
the in-memory reads of rd_u8 and friends cannot fail). -/
def tzx_read_next : Nat → Nat → Tape → Option (Bool × Tape)
  | 0, _, _ => none
  | fuel + 1, now, t =>
    if t.file.length ≤ t.pos then some (false, t)
    else
      let (id, t) := rd_u8 t
      if id = 0x00 ∨ id = 0x10 then some (true, tzx_block_std now t)
      else if id = 0x02 ∨ id = 0x12 then some (true, tzx_block_tone now t)
      else if id = 0x11 then some (true, tzx_block_turbo now t)
      else if id = 0x13 then some (true, tzx_block_pulse_seq now t)
      else if id = 0x14 then some (true, tzx_block_pure_data now t)
      else if id = 0x15 then some (true, tzx_block_direct now t)
      else if id = 0x18 then some (true, tzx_block_csw now t)
      else if id = 0x19 then some (true, tzx_block_gdb now t)
      else if id = 0x20 then some (tzx_block_pause20 now t)
      else if id = 0x21 then tzx_read_next fuel now (tzx_skip_group_start t)
      else if id = 0x22 then tzx_read_next fuel now { t with group_depth := 0 }
      else if id = 0x24 then tzx_read_next fuel now (tzx_skip_loop_start t)
      else if id = 0x25 then tzx_read_next fuel now (tzx_step_loop_end t)
      else if id = 0x2A then
        some (false, { t with phase := Phase.idle, playing := false, level := true })
      else if id = 0x2B then tzx_read_next fuel now (tzx_set_level t)
      else if id = 0x30 then tzx_read_next fuel now (tzx_skip_text t)
      else if id = 0x31 then tzx_read_next fuel now (tzx_skip_message t)
      else if id = 0x32 then tzx_read_next fuel now (tzx_skip_archive t)
      else if id = 0x33 then tzx_read_next fuel now (tzx_skip_hw t)
      else if id = 0x35 then tzx_read_next fuel now (tzx_skip_custom t)
      else if id = 0x5A then tzx_read_next fuel now (tzx_skip_glue t)
      else
        some (false, t)


/-- The tail of the TZX data branch after the cursor moved to a new bit
(minzx.c lines 616-627): the used-bits-in-last-byte early exit, else emit
the half-wave of the selected bit. -/
def tzx_data_after (t : Tape) : Tape :=
  if t.data_pos = t.blk_len ∧ t.used_bits_last ≠ 0 ∧ t.used_bits_last ≠ 8 ∧
      (t.used_bits_last : Int) ≤ 7 - t.cur_bit then
    { t with phase := Phase.pause,
             next_edge_cycle := t.next_edge_cycle + ms_to_tstates t.pause_ms }
  else
    let b := (t.cur_byte >>> t.cur_bit.toNat) &&& 1 ≠ 0
    let hw := halfwave_for_bit t b
    { t with halfwave_ts := hw, next_edge_cycle := t.next_edge_cycle + hw }

/-- One iteration of the `while (now_cycle >= tape.next_edge_cycle)` loop
of `tzx_ear_level_until` (minzx.c lines 544-669): the level toggle is
skipped in the Pause phase; `none` is reader fuel exhaustion. -/
def tzx_process_edge (rfuel now : Nat) (t : Tape) : Option Tape :=
  let t := if t.phase ≠ Phase.pause then { t with level := !t.level } else t
  match t.phase with
  | Phase.pilot | Phase.pureTone =>
      let pl := t.pulses_left - 1
      if 0 < pl then
        some { t with pulses_left := pl,
                      next_edge_cycle := t.next_edge_cycle + t.halfwave_ts }
      else
        let t := { t with pulses_left := pl }
        if t.t_sync1 ≠ 0 then
          some { t with phase := Phase.sync1, halfwave_ts := t.t_sync1,
                        next_edge_cycle := t.next_edge_cycle + t.t_sync1 }
        else if t.t_bit0 ≠ 0 ∨ t.t_bit1 ≠ 0 then
          let cb := if 0 < t.blk_len then t.blk.getD 0 0 % 256 else 0
          let dp := if 0 < t.blk_len then 1 else 0
          let t1 := { t with phase := Phase.data, data_pos := dp, cur_bit := 7,
                             pulse_of_bit := 0, cur_byte := cb }
          let hw := halfwave_for_bit t1 ((cb &&& 0x80) ≠ 0)
          some { t1 with halfwave_ts := hw,
                         next_edge_cycle := t1.next_edge_cycle + hw }
        else
          some { t with phase := Phase.pause,
                        next_edge_cycle := t.next_edge_cycle + ms_to_tstates t.pause_ms }
  | Phase.sync1 =>
      if t.t_sync2 ≠ 0 then
        some { t with phase := Phase.sync2, halfwave_ts := t.t_sync2,
                      next_edge_cycle := t.next_edge_cycle + t.t_sync2 }
      else
        let cb := if 0 < t.blk_len then t.blk.getD 0 0 % 256 else 0
        let dp := if 0 < t.blk_len then 1 else 0
        let t1 := { t with phase := Phase.data, data_pos := dp, cur_bit := 7,
                           pulse_of_bit := 0, cur_byte := cb }
        let hw := halfwave_for_bit t1 ((cb &&& 0x80) ≠ 0)
        some { t1 with halfwave_ts := hw,
                       next_edge_cycle := t1.next_edge_cycle + hw }
  | Phase.sync2 =>
      let cb := if 0 < t.blk_len then t.blk.getD 0 0 % 256 else 0
      let dp := if 0 < t.blk_len then 1 else 0
      let t1 := { t with phase := Phase.data, data_pos := dp, cur_bit := 7,
                         pulse_of_bit := 0, cur_byte := cb }
      let hw := halfwave_for_bit t1 ((cb &&& 0x80) ≠ 0)
      some { t1 with halfwave_ts := hw,
                     next_edge_cycle := t1.next_edge_cycle + hw }
  | Phase.data =>
      let pob := t.pulse_of_bit ^^^ 1
      if pob = 1 then
        some { t with pulse_of_bit := pob,
                      next_edge_cycle := t.next_edge_cycle + t.halfwave_ts }
      else
        let t := { t with pulse_of_bit := pob }
        let cbit : Int := t.cur_bit - 1
        if cbit < 0 then
          if t.blk_len ≤ t.data_pos then
            some { t with cur_bit := cbit, phase := Phase.pause,
                          next_edge_cycle := t.next_edge_cycle + ms_to_tstates t.pause_ms }
          else
            some (tzx_data_after
              { t with cur_bit := 7,
                       cur_byte := t.blk.getD t.data_pos 0 % 256,
                       data_pos := t.data_pos + 1 })
        else
          some (tzx_data_after { t with cur_bit := cbit })
  | Phase.pulseSeq =>
      if t.pulse_seq_i < t.pulse_seq_n then
        let hw := t.pulse_seq.getD t.pulse_seq_i 0
        some { t with halfwave_ts := hw, pulse_seq_i := t.pulse_seq_i + 1,
                      next_edge_cycle := t.next_edge_cycle + hw }
      else
        some { t with phase := Phase.pause,
                      next_edge_cycle := t.next_edge_cycle + ms_to_tstates t.pause_ms }
  | Phase.directRec =>
      if t.dr_total_bits ≤ t.dr_bit_index then
        some { t with phase := Phase.pause,
                      next_edge_cycle := t.next_edge_cycle + ms_to_tstates t.pause_ms }
      else
        let byte_i := t.dr_bit_index >>> 3
        let bit_i := 7 - (t.dr_bit_index &&& 7)
        let b := t.blk.getD byte_i 0 % 256
        let lvl := (b >>> bit_i) &&& 1 ≠ 0
        let t1 := { t with next_edge_cycle := t.next_edge_cycle + t.dr_tstates_per_sample }
        let t2 := if lvl ≠ t1.level then t1 else { t1 with level := !t1.level }
        some { t2 with dr_bit_index := t2.dr_bit_index + 1 }
  | Phase.pause =>
      match tzx_read_next rfuel now t with
      | none => none
      | some (true, t2) => some t2
      | some (false, t2) =>
          some { t2 with phase := Phase.idle, playing := false, level := true }
  | Phase.idle => some t

/-- The catch-up loop of `tzx_ear_level_until` with explicit loop fuel and
reader fuel; the flag is true when the loop exited through its own
conditions. -/
def tzx_loop : Nat → Nat → Nat → Tape → Tape × Bool
  | 0, _, _, t => (t, false)
  | k + 1, rfuel, now, t =>
      if t.next_edge_cycle ≤ now then
        match tzx_process_edge rfuel now t with
        | none => (t, false)
        | some t2 =>
            if t2.phase = Phase.idle then (t2, true) else tzx_loop k rfuel now t2
      else (t, true)

/-- `tzx_ear_level_until` (minzx.c lines 541-671): result state, returned
EAR level, and completion flag. -/
def tzx_ear_level_until (fuel rfuel now : Nat) (t : Tape) : Tape × Bool × Bool :=
  if t.playing = false ∨ t.has_f = false ∨ t.phase = Phase.idle then
    (t, true, true)
  else
    let (t2, done) := tzx_loop fuel rfuel now t
    (t2, t2.level, done)

/-! ### Concrete states used by the witnesses and counterexamples -/

/-- A CPU state with interrupt mode 2 and a nonzero I register (reachable
via IM 2 and LD I,A). -/
def c1_ex : Z80 := { z80_init with interrupt_mode := 2, i := 0x3F }

/-- A halted machine state with R = 0 and cycle counter 0. -/
def c2_ex : Z80M :=
  { cpu := { z80_init with halted := true }, mem := fun _ => 0 }

/-- A halted machine state for the `z80_step_n` divergence. -/
def c9_ex : Z80M :=
  { cpu := { z80_init with halted := true }, mem := fun _ => 0 }

/-- A non-halted machine over zeroed memory. -/
def c9_run : Z80M := { cpu := z80_init, mem := fun _ => 0 }

/-- A 40-track single-sided image whose data is a full blank disk. -/
def c10_img : Trd :=
  { read_only := false, modified := false, tracks := 40, sides := 1,
    data := List.replicate (40 * 16 * 256) 0 }

/-- A read-only one-track image. -/
def c7_img : Trd :=
  { read_only := true, modified := false, tracks := 1, sides := 1,
    data := List.replicate 4096 0 }

/-- An FDC with the read-only image in drive 0. -/
def c7_fdc : Fdc := fdc_attach_image fdc_init 0 (some c7_img)

/-- The image an SCL mount hands to the FDC: the converted TRD opened with
`trd_open(temp_filename, false)`, so its read-only flag is
`scl_converted_trd_read_only` (false). -/
def c8_img : Trd :=
  { read_only := scl_converted_trd_read_only, modified := false,
    tracks := 1, sides := 1, data := List.replicate 4096 0 }

/-- The FDC after an SCL mount on drive 0 (track 0, sector 1 selected,
matching `fdc_reset`-style defaults). -/
def c8_fdc : Fdc :=
  { fdc_attach_image fdc_init 0 (some c8_img) with sector := 1 }

/-- The WriteData transfer of the SCL-backed drive with 255 of the 256
data bytes already streamed through port 0x7F. -/
def c8_mid : Fdc :=
  { fdc_execute_command c8_fdc 0xA0 with buffer_pos := 255 }

/-- The final data-port write: the transfer completes and the sector is
committed to the image by `trd_write_sector`. -/
def c8_fin : Fdc := fdc_port_out c8_mid 0x7F 0xAB

/-- A neutral tape state all concrete tape examples start from. -/
def tape0 : Tape :=
  { has_f := true, file := [], pos := 0, fmt := TapeFmt.tzx
    phase := Phase.idle, pulses_left := 0, halfwave_ts := 0
    next_edge_cycle := 0, level := true
    blk := [], blk_len := 0, data_pos := 0, cur_byte := 0, cur_bit := 7
    pulse_of_bit := 0
    t_pilot := 0, t_sync1 := 0, t_sync2 := 0, t_bit0 := 0, t_bit1 := 0
    pilot_pulses := 0, used_bits_last := 8, pause_ms := 1000
    pulse_seq := [], pulse_seq_n := 0, pulse_seq_i := 0
    dr_tstates_per_sample := 0, dr_total_bits := 0, dr_bit_index := 0
    csw_freq_hz := 0, csw_compression := 0, csw_data_len := 0
    playing := true, initial_level_known := false, initial_level := false
    loop_pos := 0, loop_remaining := 0, loop_active := false
    group_depth := 0 }

/-- A playing TZX engine in Direct Recording (block 0x15) at its first
sample boundary, due at clock 50: one data byte 0x00, 100 T-states per
sample, EAR currently high. -/
def c3_ex : Tape :=
  { tape0 with phase := Phase.directRec, blk := [0], blk_len := 1,
               dr_tstates_per_sample := 100, dr_total_bits := 8,
               dr_bit_index := 0, next_edge_cycle := 50, level := true }

/-- A TAP engine sitting in the Pause phase (as `start_pause` leaves it:
EAR high) whose file holds one further block of two bytes 0xFF 0xA5, with
the pause expiring at clock 80. -/
def c4_tap_ex : Tape :=
  { tape0 with fmt := TapeFmt.tap, phase := Phase.pause,
               file := [0x02, 0x00, 0xFF, 0xA5], pos := 0,
               next_edge_cycle := 80, level := true }

/-- A TZX engine in the Pause phase whose next block is a Pure Tone
(0x12, half-wave 0x10, 2 pulses), with the pause expiring at clock 80 and
the EAR left low by the previous data block. -/
def c4_tzx_ex : Tape :=
  { tape0 with phase := Phase.pause,
               file := [0x12, 0x10, 0x00, 0x02, 0x00], pos := 0,
               next_edge_cycle := 80, level := false }

/-- A TAP engine mid-pilot-tone, next edge at clock 30. -/
def c3_tap_w : Tape :=
  { tape0 with fmt := TapeFmt.tap, phase := Phase.pilot, pulses_left := 4,
               halfwave_ts := 5, t_sync1 := 7, next_edge_cycle := 30 }

/-- A TAP engine at the very last data half-pulse of its block (second
pulse of bit 0 of the final byte), EAR low. -/
def c3_tap_d : Tape :=
  { tape0 with fmt := TapeFmt.tap, phase := Phase.data, pulse_of_bit := 1,
               cur_bit := 0, blk_len := 1, data_pos := 1, level := false,
               next_edge_cycle := 40 }

/-- A TZX engine about to consume its first sync pulse. -/
def c3_tzx_w : Tape :=
  { tape0 with phase := Phase.sync1, t_sync2 := 9, next_edge_cycle := 30 }

/-! ### C1: reset behaviour -/

/-- C1, counterexample: on a CPU state with interrupt mode 2 and I = 0x3F,
`z80_reset` leaves both untouched, so the claim that after reset the
interrupt mode is 0 and I = 0 fails at this input. -/
theorem C1_counterexample :
    ¬ ((z80_reset c1_ex).pc = 0x0000 ∧ (z80_reset c1_ex).iff1 = false ∧
       (z80_reset c1_ex).iff2 = false ∧ (z80_reset c1_ex).interrupt_mode = 0 ∧
       (z80_reset c1_ex).i = 0 ∧ (z80_reset c1_ex).r = 0 ∧
       (z80_reset c1_ex).halted = false) := by
  decide

/-- C1, amended: after `z80_reset` on any CPU state, PC = 0, IFF1 = IFF2 =
false, halted = false and R = 0, while I, the interrupt mode and the
register pairs keep their prior values (`z80_init`, not `z80_reset`, is
what sets the interrupt mode, and it sets it to 1). -/
theorem C1_amended (c : Z80) :
    (z80_reset c).pc = 0x0000 ∧ (z80_reset c).iff1 = false ∧
    (z80_reset c).iff2 = false ∧ (z80_reset c).halted = false ∧
    (z80_reset c).r = 0 ∧ (z80_reset c).i = c.i ∧
    (z80_reset c).interrupt_mode = c.interrupt_mode ∧
    (z80_reset c).af = c.af ∧ (z80_reset c).sp = c.sp ∧
    z80_init.interrupt_mode = 1 := by
  simp [z80_reset, z80_init]

/-! ### C2: z80_step while halted -/

/-- C2, counterexample: stepping the halted state `c2_ex` (R = 0) leaves
R = 0; the claimed increment of the low 7 bits of R (which would give 1)
does not happen.  PC is indeed unchanged. -/
theorem C2_counterexample :
    (z80_step (fun _ => 0) c2_ex).2.cpu.r = 0 ∧
    (z80_step (fun _ => 0) c2_ex).2.cpu.pc = c2_ex.cpu.pc ∧
    ((c2_ex.cpu.r &&& 0x80) ||| ((c2_ex.cpu.r + 1) &&& 0x7F)) = 1 ∧
    (z80_step (fun _ => 0) c2_ex).2.cpu.r ≠ 1 := by
  refine ⟨rfl, rfl, by decide, by decide⟩

/-- C2, amended: on a halted CPU, `z80_step` returns before the fetch, so
the whole state - PC and R included - is unchanged and 4 cycles are
reported (without even being added to the cycle counter). -/
theorem C2_amended (ports : Nat → Nat) (s : Z80M) (h : s.cpu.halted = true) :
    z80_step ports s = (4, s) := by
  simp [z80_step, h]

/-- Witness for C2_amended at the concrete halted state. -/
theorem C2_amended_witness :
    z80_step (fun _ => 0) c2_ex = (4, c2_ex) :=
  C2_amended (fun _ => 0) c2_ex rfl

/-! ### C9: cycle lower bound and z80_step_n termination -/

/-- Every branch of the ED dispatch reports at least 4 cycles. -/
theorem z80_exec_ed_cycles (ports : Nat → Nat) (ed_op : Nat) (s : Z80M) :
    4 ≤ (z80_exec_ed ports ed_op s).1 := by
  unfold z80_exec_ed
  split
  all_goals try norm_num
  all_goals (split <;> norm_num)

/-- Every branch of the main opcode dispatch reports at least 4 cycles. -/
theorem z80_exec_cycles (ports : Nat → Nat) (opcode : Nat) (s : Z80M) :
    4 ≤ (z80_exec ports opcode s).1 := by
  unfold z80_exec
  split <;> try norm_num
  all_goals exact z80_exec_ed_cycles ports _ _

/-- C9: the first half of the claim holds - `z80_step` always returns at
least 4 cycles - but the second half fails: the halted early return skips
the `cpu->cycles += cycles` accumulation, so from any halted state every
iteration of the `while (cpu->cycles < target)` loop of `z80_step_n`
leaves the state (its cycle counter included) exactly as it was, and the
loop never terminates for any positive n.  The third conjunct pins the
divergence at the concrete halted state `c9_ex` with n = 1: after any
number of iterations the loop guard `cycles < cycles + 1` still holds. -/
theorem C9_bug :
    (∀ (ports : Nat → Nat) (s : Z80M), 4 ≤ (z80_step ports s).1) ∧
    (∀ k : Nat, z80_step_iter (fun _ => 0) k c9_ex = c9_ex) ∧
    (∀ k : Nat, (z80_step_iter (fun _ => 0) k c9_ex).cpu.cycles <
      c9_ex.cpu.cycles + 1) := by
  have hstep : ∀ (ports : Nat → Nat) (s : Z80M), s.cpu.halted = true →
      z80_step ports s = (4, s) := by
    intro ports s h
    simp [z80_step, h]
  have hiter : ∀ k : Nat, z80_step_iter (fun _ => 0) k c9_ex = c9_ex := by
    intro k
    induction k with
    | zero => rfl
    | succ n ih =>
        rw [z80_step_iter, hstep (fun _ => 0) c9_ex rfl]
        exact ih
  refine ⟨?_, hiter, ?_⟩
  · intro ports s
    unfold z80_step
    split
    · norm_num
    · exact z80_exec_cycles ports _ _
  · intro k
    rw [hiter k]
    exact Nat.lt_succ_self _

/-! ### C5: AY write/read round trip -/

/-- The register array after a write: the raw byte is stored, with no
mask. -/
theorem ay_write_reg_regs (a : Ay) (r v : Nat) (h : r < 16) :
    (ay_write_reg a r v).regs = a.regs.set r v := by
  unfold ay_write_reg
  have h16 : ¬ 16 ≤ r := by omega
  simp only [h16, if_false]
  split <;> try rfl
  split <;> try rfl
  split <;> try rfl
  split <;> try rfl
  split <;> try rfl
  split <;> rfl

/-- C5, counterexample: the claim's own example register R6 (noise period,
mask 0x1F).  Writing 0xFF and reading back yields 0xFF, not
0xFF & 0x1F = 0x1F. -/
theorem C5_counterexample :
    ay_read_reg (ay_write_reg ay_reset 6 0xFF) 6 = 0xFF ∧
    (0xFF : Nat) &&& 0x1F = 0x1F ∧
    ay_read_reg (ay_write_reg ay_reset 6 0xFF) 6 ≠ 0x1F := by
  refine ⟨by decide, by decide, by decide⟩

/-- C5, amended: for every register index below 14 (the write-only I/O
ports are 14 and 15), writing a byte and reading it back returns the byte
unmasked - the masks apply only to the derived generator state, as the
second conjunct shows for R6 (period `v & 0x1F`, with 0 bumped to 1). -/
theorem C5_amended (a : Ay) (r v : Nat) (hr : r < 14)
    (hlen : a.regs.length = 16) :
    ay_read_reg (ay_write_reg a r v) r = v ∧
    (ay_write_reg a 6 v).noise.period =
      (if v &&& 0x1F = 0 then 1 else v &&& 0x1F) := by
  constructor
  · have hregs : (ay_write_reg a r v).regs = a.regs.set r v :=
      ay_write_reg_regs a r v (by omega)
    unfold ay_read_reg
    have h16 : ¬ 16 ≤ r := by omega
    have h1415 : ¬ (r = 14 ∨ r = 15) := by omega
    simp only [h16, if_false, h1415]
    unfold ay_reg
    rw [hregs]
    have hlt : r < a.regs.length := by omega
    simp [List.getD, List.getElem?_set_eq_of_lt _ hlt]
  · unfold ay_write_reg
    norm_num

/-- Witness for C5_amended at register 6, value 0xFF, from the reset
state. -/
theorem C5_amended_witness :
    ay_read_reg (ay_write_reg ay_reset 6 0xFF) 6 = 0xFF ∧
    (ay_write_reg ay_reset 6 0xFF).noise.period =
      (if (0xFF : Nat) &&& 0x1F = 0 then 1 else 0xFF &&& 0x1F) :=
  C5_amended ay_reset 6 0xFF (by norm_num) (by decide)

/-! ### C10: out-of-range TRD sector access -/

/-- C10: for out-of-range coordinates, `trd_get_offset` reports -1 before
any file access, so `trd_read_sector` returns false with the caller's
buffer untouched (`none`) and `trd_write_sector` returns false leaving the
image - contents and modified flag - exactly as it was. -/
theorem C10_oob (img : Trd) (track head sector : Nat) (buf : List Nat)
    (h : img.tracks ≤ track ∨ img.sides ≤ head ∨ 16 ≤ sector) :
    trd_read_sector img track head sector = none ∧
    trd_write_sector img track head sector buf = (false, img) := by
  have hoff : trd_get_offset img track head sector = none := by
    unfold trd_get_offset
    simp [h]
  constructor
  · unfold trd_read_sector
    rw [hoff]
  · unfold trd_write_sector
    rw [hoff]
    split <;> rfl

/-- Witness for C10_oob: sector 16 of a 40-track single-sided image. -/
theorem C10_oob_witness :
    trd_read_sector c10_img 0 0 16 = none ∧
    trd_write_sector c10_img 0 0 16 (List.replicate 256 7) = (false, c10_img) :=
  C10_oob c10_img 0 0 16 (List.replicate 256 7) (Or.inr (Or.inr (by norm_num)))

/-! ### C7: Type II failure paths -/

/-- C7: a Read Sector (0x80) or Write Sector (0xA0) command with no image
in the selected drive sets RNF, clears BUSY and idles, leaving the drive
array untouched; a Write Sector against a read-only image sets
WRITE_PROTECT, clears BUSY and idles, leaving the drive array (hence the
image) untouched. -/
theorem C7_type2_failures :
    (∀ (f : Fdc) (cmd : Nat),
      (cmd % 256 &&& 0xF0 = 0x80 ∨ cmd % 256 &&& 0xF0 = 0xA0) →
      f.drives f.current_drive = none →
      (fdc_execute_command f cmd).st_rnf = true ∧
      (fdc_execute_command f cmd).st_busy = false ∧
      (fdc_execute_command f cmd).state = FdcSt.idle ∧
      (fdc_execute_command f cmd).drives = f.drives) ∧
    (∀ (f : Fdc) (cmd : Nat) (img : Trd),
      cmd % 256 &&& 0xF0 = 0xA0 →
      f.drives f.current_drive = some img →
      img.read_only = true →
      (fdc_execute_command f cmd).st_wprot = true ∧
      (fdc_execute_command f cmd).st_busy = false ∧
      (fdc_execute_command f cmd).state = FdcSt.idle ∧
      (fdc_execute_command f cmd).drives = f.drives) := by
  constructor
  · intro f cmd hc hd
    rcases hc with h | h <;>
      simp [fdc_execute_command, h, hd]
  · intro f cmd img h hd hro
    simp [fdc_execute_command, h, hd, hro]

/-- Witness for C7_type2_failures: Write Sector against the empty drive 0
of a fresh FDC, and against the read-only image mounted in `c7_fdc`. -/
theorem C7_type2_failures_witness :
    ((fdc_execute_command fdc_init 0xA0).st_rnf = true ∧
      (fdc_execute_command fdc_init 0xA0).st_busy = false ∧
      (fdc_execute_command fdc_init 0xA0).state = FdcSt.idle ∧
      (fdc_execute_command fdc_init 0xA0).drives = fdc_init.drives) ∧
    ((fdc_execute_command c7_fdc 0xA0).st_wprot = true ∧
      (fdc_execute_command c7_fdc 0xA0).st_busy = false ∧
      (fdc_execute_command c7_fdc 0xA0).state = FdcSt.idle ∧
      (fdc_execute_command c7_fdc 0xA0).drives = c7_fdc.drives) :=
  ⟨C7_type2_failures.1 fdc_init 0xA0 (Or.inr (by decide)) rfl,
   C7_type2_failures.2 c7_fdc 0xA0 c7_img (by decide) rfl rfl⟩

/-! ### C8: SCL-converted images are writable through the FDC -/

set_option maxRecDepth 8000 in
/-- C8: the TRD image produced by scl_open is opened read-write
(`scl_converted_trd_read_only` = false) and that underlying image is what
main attaches to the FDC, so a Write Sector command against it does not
set WRITE_PROTECT: the FDC enters WriteData with DRQ raised, and after the
256 data-port writes the image has been modified. -/
theorem C8_bug :
    scl_converted_trd_read_only = false ∧
    c8_img.modified = false ∧
    (fdc_execute_command c8_fdc 0xA0).st_wprot = false ∧
    (fdc_execute_command c8_fdc 0xA0).state = FdcSt.writeData ∧
    (fdc_execute_command c8_fdc 0xA0).st_drq = true ∧
    (c8_fin.drives 0).map Trd.modified = some true ∧
    c8_fin.state = FdcSt.idle := by
  refine ⟨rfl, rfl, ?_, ?_, ?_, ?_, ?_⟩ <;> decide

/-! ### C6: the DRQ invariant -/

/-- Every command leaves the DRQ invariant intact: the top of
`fdc_execute_command` clears DRQ, and only the successful Type II / Type
III branches set it again, always with a fresh 0 < buffer_len transfer. -/
theorem fdc_exec_inv (f : Fdc) (cmd : Nat) :
    fdc_drq_inv (fdc_execute_command f cmd) := by
  unfold fdc_drq_inv fdc_execute_command
  by_cases h0 : cmd % 256 &&& 240 = 0
  · simp [h0]
  by_cases h1 : cmd % 256 &&& 240 = 16
  · simp [h0, h1]
  by_cases h2 : cmd % 256 &&& 240 = 32 ∨ cmd % 256 &&& 240 = 64
  · rw [if_neg h0, if_neg h1, if_pos h2]
    split <;> simp
  by_cases h3 : cmd % 256 &&& 240 = 96
  · rw [if_neg h0, if_neg h1, if_neg h2, if_pos h3]
    split <;> simp
  by_cases h4 : cmd % 256 &&& 240 = 128
  · rw [if_neg h0, if_neg h1, if_neg h2, if_neg h3, if_pos h4]
    rcases hd : f.drives f.current_drive with _ | img
    · simp [hd]
    · rcases hr : trd_read_sector img f.track f.current_side
        (if 0 < f.sector then f.sector - 1 else 0) with _ | bytes
      · simp [hd, hr]
      · simp [hd, hr]
  by_cases h5 : cmd % 256 &&& 240 = 160
  · rw [if_neg h0, if_neg h1, if_neg h2, if_neg h3, if_neg h4, if_pos h5]
    rcases hd : f.drives f.current_drive with _ | img
    · simp [hd]
    · by_cases hro : img.read_only
      · simp [hd, hro]
      · simp [hd, hro]
  by_cases h6 : cmd % 256 &&& 240 = 192
  · rw [if_neg h0, if_neg h1, if_neg h2, if_neg h3, if_neg h4, if_neg h5,
      if_pos h6]
    simp
  by_cases h7 : cmd % 256 &&& 240 = 208
  · rw [if_neg h0, if_neg h1, if_neg h2, if_neg h3, if_neg h4, if_neg h5,
      if_neg h6, if_pos h7]
    simp
  · rw [if_neg h0, if_neg h1, if_neg h2, if_neg h3, if_neg h4, if_neg h5,
      if_neg h6, if_neg h7]
    simp

/-- Port reads preserve the invariant: only the data-port read moves the
cursor, clearing DRQ exactly when the transfer finishes. -/
theorem fdc_port_in_inv (f : Fdc) (port : Nat) (h : fdc_drq_inv f) :
    fdc_drq_inv (fdc_port_in f port).2 := by
  unfold fdc_drq_inv at h ⊢
  unfold fdc_port_in
  by_cases p0 : port &&& 255 = 31
  · simp [p0, h]
  by_cases p1 : port &&& 255 = 63
  · simp [p0, p1, h]
  by_cases p2 : port &&& 255 = 95
  · simp [p0, p1, p2, h]
  by_cases p3 : port &&& 255 = 127
  · rw [if_neg p0, if_neg p1, if_neg p2, if_pos p3]
    by_cases hr : f.state = FdcSt.readData ∧ f.buffer_pos < f.buffer_len
    · rw [if_pos hr]
      by_cases hfin : f.buffer_len ≤ f.buffer_pos + 1
      · simp only [hfin, if_true]
        simp
      · rw [if_neg hfin]
        try dsimp only
        exact ⟨fun _ => ⟨Or.inl hr.1, by omega⟩,
               fun _ => h.mpr ⟨Or.inl hr.1, hr.2⟩⟩
    · simp [hr, h]
  by_cases p4 : port &&& 255 = 255
  · simp [p0, p1, p2, p3, p4, h]
  · simp [p0, p1, p2, p3, p4, h]

/-- Port writes preserve the invariant. -/
theorem fdc_port_out_inv (f : Fdc) (port val : Nat) (h : fdc_drq_inv f) :
    fdc_drq_inv (fdc_port_out f port val) := by
  unfold fdc_port_out
  by_cases p0 : port &&& 255 = 31
  · simp only [p0, if_true]
    exact fdc_exec_inv f (val % 256)
  unfold fdc_drq_inv at h ⊢
  by_cases p1 : port &&& 255 = 63
  · simp [p0, p1, h]
  by_cases p2 : port &&& 255 = 95
  · simp [p0, p1, p2, h]
  by_cases p3 : port &&& 255 = 127
  · rw [if_neg p0, if_neg p1, if_neg p2, if_pos p3]
    by_cases hw : f.state = FdcSt.writeData ∧ f.buffer_pos < f.buffer_len
    · rw [if_pos hw]
      by_cases hfin : f.buffer_len ≤ f.buffer_pos + 1
      · rw [if_pos hfin]
        rcases hd : f.drives f.current_drive with _ | img
        · simp [hd]
        · by_cases hro : img.read_only
          · simp [hd, hro]
          · simp [hd, hro]
      · rw [if_neg hfin]
        try dsimp only
        exact ⟨fun _ => ⟨Or.inr hw.1, by omega⟩,
               fun _ => h.mpr ⟨Or.inr hw.1, hw.2⟩⟩
    · simp [hw, h]
  by_cases p4 : port &&& 255 = 255
  · rw [if_neg p0, if_neg p1, if_neg p2, if_neg p3, if_pos p4]
    rcases hd : f.drives (val % 256 &&& 3) with _ | img
    · simp [hd, h]
    · simp [hd, h]
  · rw [if_neg p0, if_neg p1, if_neg p2, if_neg p3, if_neg p4]
    simp [h]

/-- The delay stepper preserves the invariant: it never touches DRQ or the
transfer states. -/
theorem fdc_step_inv (f : Fdc) (ts : Nat) (h : fdc_drq_inv f) :
    fdc_drq_inv (fdc_step f ts) := by
  unfold fdc_drq_inv at h ⊢
  unfold fdc_step
  by_cases h1 : 0 < f.delay_tstates
  · by_cases h2 : f.delay_tstates ≤ ts
    · by_cases h3 : f.state = FdcSt.busy
      · simp [h1, h2, h3] at h ⊢
        simp_all
      · simp [h1, h2, h3, h]
    · simp [h1, h2, h]
  · simp [h1, h]

/-- Attaching an image preserves the invariant. -/
theorem fdc_attach_inv (f : Fdc) (d : Nat) (img : Option Trd)
    (h : fdc_drq_inv f) : fdc_drq_inv (fdc_attach_image f d img) := by
  unfold fdc_drq_inv at h ⊢
  unfold fdc_attach_image
  by_cases h1 : 4 ≤ d
  · simp [h1, h]
  · cases img <;> simp [h1, h]

/-- The invariant only looks at DRQ, the state and the buffer cursor. -/
theorem fdc_drq_inv_congr (f g : Fdc) (hd : g.st_drq = f.st_drq)
    (hs : g.state = f.state) (hp : g.buffer_pos = f.buffer_pos)
    (hl : g.buffer_len = f.buffer_len) (h : fdc_drq_inv f) : fdc_drq_inv g := by
  unfold fdc_drq_inv at h ⊢
  rw [hd, hs, hp, hl]
  exact h

/-- Detaching an image preserves the invariant. -/
theorem fdc_detach_inv (f : Fdc) (d : Nat) (h : fdc_drq_inv f) :
    fdc_drq_inv (fdc_detach_image f d) := by
  unfold fdc_detach_image
  by_cases h1 : 4 ≤ d
  · simpa [h1] using h
  · rw [if_neg h1]
    dsimp only
    refine fdc_drq_inv_congr f _ ?_ ?_ ?_ ?_ h <;>
      simp only [apply_ite Fdc.st_drq, apply_ite Fdc.state,
        apply_ite Fdc.buffer_pos, apply_ite Fdc.buffer_len, ite_self]

/-- Every operation preserves the invariant. -/
theorem fdc_apply_inv (f : Fdc) (op : FdcOp) (h : fdc_drq_inv f) :
    fdc_drq_inv (fdc_apply f op) := by
  cases op with
  | exec cmd => exact fdc_exec_inv f cmd
  | portIn port => exact fdc_port_in_inv f port h
  | portOut port val => exact fdc_port_out_inv f port val h
  | step ts => exact fdc_step_inv f ts h
  | attach d img => exact fdc_attach_inv f d img h
  | detach d => exact fdc_detach_inv f d h

/-- C6: in every FDC state reachable from `fdc_init` through any sequence
of commands, port reads, port writes, timing steps and image
attach/detach, DRQ is set exactly when the state is ReadData or WriteData
with `buffer_pos < buffer_len`. -/
theorem C6_drq_invariant (ops : List FdcOp) :
    fdc_drq_inv (ops.foldl fdc_apply fdc_init) := by
  have base : fdc_drq_inv fdc_init := by
    unfold fdc_drq_inv fdc_init
    simp
  have step : ∀ (f : Fdc), fdc_drq_inv f →
      fdc_drq_inv (ops.foldl fdc_apply f) := by
    induction ops with
    | nil => intro f h; exact h
    | cons op rest ih =>
        intro f h
        exact ih (fdc_apply f op) (fdc_apply_inv f op h)
  exact step fdc_init base

/-! ### Tape-engine helper lemmas

The helpers of the TZX block reader only move the file cursor; they never
touch the 0x2B level-override flag. -/

theorem read_sym_pulses_known : ∀ (k : Nat) (t : Tape),
    (read_sym_pulses k t).2.initial_level_known = t.initial_level_known := by
  intro k
  induction k with
  | zero => intro t; rfl
  | succ m ih => intro t; simp [read_sym_pulses, rd_u16, rd_u8, ih]

theorem read_sym_defs_known : ∀ (k np : Nat) (t : Tape),
    (read_sym_defs k np t).2.initial_level_known = t.initial_level_known := by
  intro k
  induction k with
  | zero => intro np t; rfl
  | succ m ih =>
      intro np t
      simp [read_sym_defs, rd_u8, ih, read_sym_pulses_known]

theorem read_u16_list_known : ∀ (k : Nat) (t : Tape),
    (read_u16_list k t).2.initial_level_known = t.initial_level_known := by
  intro k
  induction k with
  | zero => intro t; rfl
  | succ m ih => intro t; simp [read_u16_list, rd_u16, rd_u8, ih]

theorem tzx19_pilot_stream_known :
    ∀ (il : Bool) (tbl : List Tzx19Sym) (asp k : Nat) (t : Tape) (seq : List Nat),
    (tzx19_pilot_stream il tbl asp k t seq).2.initial_level_known =
      t.initial_level_known := by
  intro il tbl asp k
  induction k with
  | zero => intro t seq; rfl
  | succ m ih =>
      intro t seq
      simp [tzx19_pilot_stream, rd_u8, rd_u16, ih]

theorem read_bits_acc_known :
    ∀ (k acc : Nat) (br : BitCursor) (t : Tape),
    (read_bits_acc k acc br t).2.2.initial_level_known =
      t.initial_level_known := by
  intro k
  induction k with
  | zero => intro acc br t; rfl
  | succ m ih =>
      intro acc br t
      unfold read_bits_acc
      split <;> simp [rd_u8, ih]

theorem tzx19_data_stream_known :
    ∀ (il : Bool) (tbl : List Tzx19Sym) (asd nb k : Nat) (br : BitCursor)
      (t : Tape) (seq : List Nat),
    (tzx19_data_stream il tbl asd nb k br t seq).2.2.initial_level_known =
      t.initial_level_known := by
  intro il tbl asd nb k
  induction k with
  | zero => intro br t seq; rfl
  | succ m ih =>
      intro br t seq
      simp [tzx19_data_stream, ih, read_bits_acc_known]

theorem tzx32_fields_known : ∀ (endp k : Nat) (t : Tape),
    (tzx32_fields endp k t).initial_level_known = t.initial_level_known := by
  intro endp k
  induction k with
  | zero => intro t; rfl
  | succ m ih =>
      intro t
      unfold tzx32_fields
      simp only [rd_u8]
      split
      · rfl
      · split
        · rfl
        · split
          · rfl
          · exact ih _

theorem read_sym_pulses_il : ∀ (k : Nat) (t : Tape),
    (read_sym_pulses k t).2.initial_level = t.initial_level := by
  intro k
  induction k with
  | zero => intro t; rfl
  | succ m ih => intro t; simp [read_sym_pulses, rd_u16, rd_u8, ih]

theorem read_sym_defs_il : ∀ (k np : Nat) (t : Tape),
    (read_sym_defs k np t).2.initial_level = t.initial_level := by
  intro k
  induction k with
  | zero => intro np t; rfl
  | succ m ih =>
      intro np t
      simp [read_sym_defs, rd_u8, ih, read_sym_pulses_il]

theorem tzx19_pilot_stream_il :
    ∀ (il : Bool) (tbl : List Tzx19Sym) (asp k : Nat) (t : Tape) (seq : List Nat),
    (tzx19_pilot_stream il tbl asp k t seq).2.initial_level =
      t.initial_level := by
  intro il tbl asp k
  induction k with
  | zero => intro t seq; rfl
  | succ m ih =>
      intro t seq
      simp [tzx19_pilot_stream, rd_u8, rd_u16, ih]

theorem read_bits_acc_il :
    ∀ (k acc : Nat) (br : BitCursor) (t : Tape),
    (read_bits_acc k acc br t).2.2.initial_level = t.initial_level := by
  intro k
  induction k with
  | zero => intro acc br t; rfl
  | succ m ih =>
      intro acc br t
      unfold read_bits_acc
      split <;> simp [rd_u8, ih]

theorem tzx19_data_stream_il :
    ∀ (il : Bool) (tbl : List Tzx19Sym) (asd nb k : Nat) (br : BitCursor)
      (t : Tape) (seq : List Nat),
    (tzx19_data_stream il tbl asd nb k br t seq).2.2.initial_level =
      t.initial_level := by
  intro il tbl asd nb k
  induction k with
  | zero => intro br t seq; rfl
  | succ m ih =>
      intro br t seq
      simp [tzx19_data_stream, ih, read_bits_acc_il]

/-- `tzx_prepare_standard_or_turbo` does not touch the level override. -/
theorem tzx_prepare_known (now : Nat) (u : Tape) :
    (tzx_prepare_standard_or_turbo now u).initial_level_known =
      u.initial_level_known := by
  unfold tzx_prepare_standard_or_turbo
  dsimp only
  repeat' split
  all_goals rfl

/-- The level after `tzx_prepare_standard_or_turbo` is the block's initial
level: the 0x2B override when known, else high. -/
theorem tzx_prepare_level (now : Nat) (u : Tape) :
    (tzx_prepare_standard_or_turbo now u).level =
      (if u.initial_level_known then u.initial_level else true) := by
  unfold tzx_prepare_standard_or_turbo
  dsimp only
  repeat' split
  all_goals rfl

/-- The level after `tzx_prepare_standard_or_turbo`, stated against the
result's own override fields (which the preparation copies unchanged). -/
theorem tzx_prepare_levelA (now : Nat) (u : Tape) :
    (tzx_prepare_standard_or_turbo now u).level =
      (if (tzx_prepare_standard_or_turbo now u).initial_level_known = true then
        (tzx_prepare_standard_or_turbo now u).initial_level else true) := by
  unfold tzx_prepare_standard_or_turbo
  dsimp only
  repeat' split
  all_goals rfl

/-- `tzx_prepare_standard_or_turbo` never yields the Idle phase. -/
theorem tzx_prepare_phase (now : Nat) (u : Tape) :
    (tzx_prepare_standard_or_turbo now u).phase ≠ Phase.idle := by
  unfold tzx_prepare_standard_or_turbo
  dsimp only
  repeat' split
  all_goals simp

/-! Per-block facts: every block constructor keeps the 0x2B override flag
(only `tzx_set_level` sets it), assigns the default high level when no
override is active, and never selects the Idle phase. -/

theorem tzx_block_std_known (now : Nat) (t : Tape) :
    (tzx_block_std now t).initial_level_known = t.initial_level_known := by
  unfold tzx_block_std
  simp [rd_u16, rd_u8, read_bytes, tzx_prepare_known]

theorem tzx_block_std_level (now : Nat) (t : Tape)
    (hk : t.initial_level_known = false) : (tzx_block_std now t).level = true := by
  unfold tzx_block_std
  simp [rd_u16, rd_u8, read_bytes, tzx_prepare_level, hk]

theorem tzx_block_std_phase (now : Nat) (t : Tape) :
    (tzx_block_std now t).phase ≠ Phase.idle := by
  unfold tzx_block_std
  simp [rd_u16, rd_u8, read_bytes, tzx_prepare_phase]

theorem tzx_block_tone_known (now : Nat) (t : Tape) :
    (tzx_block_tone now t).initial_level_known = t.initial_level_known := by
  unfold tzx_block_tone
  simp [rd_u16, rd_u8]

theorem tzx_block_tone_level (now : Nat) (t : Tape)
    (hk : t.initial_level_known = false) : (tzx_block_tone now t).level = true := by
  unfold tzx_block_tone
  simp [rd_u16, rd_u8, hk]

theorem tzx_block_tone_phase (now : Nat) (t : Tape) :
    (tzx_block_tone now t).phase ≠ Phase.idle := by
  unfold tzx_block_tone
  simp [rd_u16, rd_u8]

theorem tzx_block_turbo_known (now : Nat) (t : Tape) :
    (tzx_block_turbo now t).initial_level_known = t.initial_level_known := by
  unfold tzx_block_turbo
  simp [rd_u16, rd_u24, rd_u8, read_bytes, tzx_prepare_known]

theorem tzx_block_turbo_level (now : Nat) (t : Tape)
    (hk : t.initial_level_known = false) : (tzx_block_turbo now t).level = true := by
  unfold tzx_block_turbo
  simp [rd_u16, rd_u24, rd_u8, read_bytes, tzx_prepare_level, hk]

theorem tzx_block_turbo_phase (now : Nat) (t : Tape) :
    (tzx_block_turbo now t).phase ≠ Phase.idle := by
  unfold tzx_block_turbo
  simp [rd_u16, rd_u24, rd_u8, read_bytes, tzx_prepare_phase]

theorem tzx_block_pulse_seq_known (now : Nat) (t : Tape) :
    (tzx_block_pulse_seq now t).initial_level_known = t.initial_level_known := by
  unfold tzx_block_pulse_seq
  simp [rd_u8, read_u16_list_known]

theorem tzx_block_pulse_seq_level (now : Nat) (t : Tape)
    (hk : t.initial_level_known = false) :
    (tzx_block_pulse_seq now t).level = true := by
  unfold tzx_block_pulse_seq
  simp [rd_u8, read_u16_list_known, hk]

theorem tzx_block_pulse_seq_phase (now : Nat) (t : Tape) :
    (tzx_block_pulse_seq now t).phase ≠ Phase.idle := by
  unfold tzx_block_pulse_seq
  simp [rd_u8]

theorem tzx_block_pure_data_known (now : Nat) (t : Tape) :
    (tzx_block_pure_data now t).initial_level_known = t.initial_level_known := by
  unfold tzx_block_pure_data
  simp [rd_u16, rd_u24, rd_u8, read_bytes]

theorem tzx_block_pure_data_level (now : Nat) (t : Tape)
    (hk : t.initial_level_known = false) :
    (tzx_block_pure_data now t).level = true := by
  unfold tzx_block_pure_data
  simp [rd_u16, rd_u24, rd_u8, read_bytes, hk]

theorem tzx_block_pure_data_phase (now : Nat) (t : Tape) :
    (tzx_block_pure_data now t).phase ≠ Phase.idle := by
  unfold tzx_block_pure_data
  simp [rd_u16, rd_u24, rd_u8, read_bytes]

theorem tzx_block_direct_known (now : Nat) (t : Tape) :
    (tzx_block_direct now t).initial_level_known = t.initial_level_known := by
  unfold tzx_block_direct
  simp [rd_u16, rd_u24, rd_u8, read_bytes]

theorem tzx_block_direct_level (now : Nat) (t : Tape)
    (hk : t.initial_level_known = false) :
    (tzx_block_direct now t).level = true := by
  unfold tzx_block_direct
  simp [rd_u16, rd_u24, rd_u8, read_bytes, hk]

theorem tzx_block_direct_phase (now : Nat) (t : Tape) :
    (tzx_block_direct now t).phase ≠ Phase.idle := by
  unfold tzx_block_direct
  simp [rd_u16, rd_u24, rd_u8, read_bytes]

theorem tzx_block_csw_known (now : Nat) (t : Tape) :
    (tzx_block_csw now t).initial_level_known = t.initial_level_known := by
  unfold tzx_block_csw
  dsimp only [rd_u16, rd_u32, rd_u8, read_bytes]
  split <;> rfl

theorem tzx_block_csw_level (now : Nat) (t : Tape)
    (hk : t.initial_level_known = false) : (tzx_block_csw now t).level = true := by
  unfold tzx_block_csw
  dsimp only [rd_u16, rd_u32, rd_u8, read_bytes]
  split <;> simp [hk]

theorem tzx_block_csw_phase (now : Nat) (t : Tape) :
    (tzx_block_csw now t).phase ≠ Phase.idle := by
  unfold tzx_block_csw
  dsimp only [rd_u16, rd_u32, rd_u8, read_bytes]
  split <;> simp

theorem tzx_block_gdb_known (now : Nat) (t : Tape) :
    (tzx_block_gdb now t).initial_level_known = t.initial_level_known := by
  unfold tzx_block_gdb
  dsimp only [rd_u16, rd_u32, rd_u8, read_bytes]
  repeat' split
  all_goals
    simp [read_sym_defs_known, tzx19_pilot_stream_known, tzx19_data_stream_known]

theorem tzx_block_gdb_level (now : Nat) (t : Tape)
    (hk : t.initial_level_known = false) : (tzx_block_gdb now t).level = true := by
  unfold tzx_block_gdb
  dsimp only [rd_u16, rd_u32, rd_u8, read_bytes]
  repeat' split
  all_goals simp_all

theorem tzx_block_gdb_phase (now : Nat) (t : Tape) :
    (tzx_block_gdb now t).phase ≠ Phase.idle := by
  unfold tzx_block_gdb
  dsimp only [rd_u16, rd_u32, rd_u8, read_bytes]
  simp

theorem tzx_block_pause20_known (now : Nat) (t : Tape) :
    (tzx_block_pause20 now t).2.initial_level_known = t.initial_level_known := by
  unfold tzx_block_pause20
  simp only [rd_u16, rd_u8]
  split <;> simp

theorem tzx_block_pause20_level (now : Nat) (t : Tape) :
    (tzx_block_pause20 now t).2.level = true := by
  unfold tzx_block_pause20
  simp only [rd_u16, rd_u8]
  split <;> simp

theorem tzx_block_pause20_phase (now : Nat) (t : Tape)
    (ho : (tzx_block_pause20 now t).1 = true) :
    (tzx_block_pause20 now t).2.phase ≠ Phase.idle := by
  unfold tzx_block_pause20 at ho ⊢
  simp only [rd_u16, rd_u8] at ho ⊢
  split at ho
  · simp at ho
  · simp_all

/-! Each playable block starts from a defined level: the 0x2B-declared
initial level when one is active, otherwise high; the CSW fallback and the
0x20 pause force the level high outright.  Stated against the result's own
override fields so the facts compose across a whole reader run. -/

theorem tzx_block_std_levelA (now : Nat) (t : Tape) :
    (tzx_block_std now t).level =
      (if (tzx_block_std now t).initial_level_known = true then
        (tzx_block_std now t).initial_level else true) ∨
    (tzx_block_std now t).level = true := by
  left
  unfold tzx_block_std
  dsimp only [rd_u16, rd_u8, read_bytes]
  exact tzx_prepare_levelA now _

theorem tzx_block_tone_levelA (now : Nat) (t : Tape) :
    (tzx_block_tone now t).level =
      (if (tzx_block_tone now t).initial_level_known = true then
        (tzx_block_tone now t).initial_level else true) ∨
    (tzx_block_tone now t).level = true := by
  left
  unfold tzx_block_tone
  dsimp only [rd_u16, rd_u8]

theorem tzx_block_turbo_levelA (now : Nat) (t : Tape) :
    (tzx_block_turbo now t).level =
      (if (tzx_block_turbo now t).initial_level_known = true then
        (tzx_block_turbo now t).initial_level else true) ∨
    (tzx_block_turbo now t).level = true := by
  left
  unfold tzx_block_turbo
  dsimp only [rd_u16, rd_u24, rd_u8, read_bytes]
  exact tzx_prepare_levelA now _

theorem tzx_block_pulse_seq_levelA (now : Nat) (t : Tape) :
    (tzx_block_pulse_seq now t).level =
      (if (tzx_block_pulse_seq now t).initial_level_known = true then
        (tzx_block_pulse_seq now t).initial_level else true) ∨
    (tzx_block_pulse_seq now t).level = true := by
  left
  unfold tzx_block_pulse_seq
  dsimp only [rd_u8]

theorem tzx_block_pure_data_levelA (now : Nat) (t : Tape) :
    (tzx_block_pure_data now t).level =
      (if (tzx_block_pure_data now t).initial_level_known = true then
        (tzx_block_pure_data now t).initial_level else true) ∨
    (tzx_block_pure_data now t).level = true := by
  left
  unfold tzx_block_pure_data
  dsimp only [rd_u16, rd_u24, rd_u8, read_bytes]

theorem tzx_block_direct_levelA (now : Nat) (t : Tape) :
    (tzx_block_direct now t).level =
      (if (tzx_block_direct now t).initial_level_known = true then
        (tzx_block_direct now t).initial_level else true) ∨
    (tzx_block_direct now t).level = true := by
  left
  unfold tzx_block_direct
  dsimp only [rd_u16, rd_u24, rd_u8, read_bytes]

theorem tzx_block_csw_levelA (now : Nat) (t : Tape) :
    (tzx_block_csw now t).level =
      (if (tzx_block_csw now t).initial_level_known = true then
        (tzx_block_csw now t).initial_level else true) ∨
    (tzx_block_csw now t).level = true := by
  unfold tzx_block_csw
  dsimp only [rd_u16, rd_u32, rd_u8, read_bytes]
  split
  · left
    rfl
  · right
    rfl

theorem tzx_block_gdb_il (now : Nat) (t : Tape) :
    (tzx_block_gdb now t).initial_level = t.initial_level := by
  unfold tzx_block_gdb
  dsimp only [rd_u16, rd_u32, rd_u8, read_bytes]
  repeat' split
  all_goals
    simp [read_sym_defs_il, tzx19_pilot_stream_il, tzx19_data_stream_il]

theorem tzx_block_gdb_level_eq (now : Nat) (t : Tape) :
    (tzx_block_gdb now t).level =
      (if t.initial_level_known = true then t.initial_level else true) := by
  unfold tzx_block_gdb
  dsimp only [rd_u16, rd_u32, rd_u8, read_bytes]

theorem tzx_block_gdb_levelA (now : Nat) (t : Tape) :
    (tzx_block_gdb now t).level =
      (if (tzx_block_gdb now t).initial_level_known = true then
        (tzx_block_gdb now t).initial_level else true) ∨
    (tzx_block_gdb now t).level = true := by
  left
  rw [tzx_block_gdb_level_eq, tzx_block_gdb_known, tzx_block_gdb_il]

theorem tzx_skip_group_start_known (t : Tape) :
    (tzx_skip_group_start t).initial_level_known = t.initial_level_known := by
  unfold tzx_skip_group_start
  simp [rd_u8]

theorem tzx_skip_loop_start_known (t : Tape) :
    (tzx_skip_loop_start t).initial_level_known = t.initial_level_known := by
  unfold tzx_skip_loop_start
  simp [rd_u16, rd_u8]

theorem tzx_step_loop_end_known (t : Tape) :
    (tzx_step_loop_end t).initial_level_known = t.initial_level_known := by
  unfold tzx_step_loop_end
  split <;> rfl

theorem tzx_set_level_known (t : Tape) :
    (tzx_set_level t).initial_level_known = true := by
  unfold tzx_set_level
  simp [rd_u8]

theorem tzx_skip_text_known (t : Tape) :
    (tzx_skip_text t).initial_level_known = t.initial_level_known := by
  unfold tzx_skip_text
  simp [rd_u8]

theorem tzx_skip_message_known (t : Tape) :
    (tzx_skip_message t).initial_level_known = t.initial_level_known := by
  unfold tzx_skip_message
  simp [rd_u8]

theorem tzx_skip_archive_known (t : Tape) :
    (tzx_skip_archive t).initial_level_known = t.initial_level_known := by
  unfold tzx_skip_archive
  simp only [rd_u16, rd_u8]
  split
  · rfl
  · split <;> simp [tzx32_fields_known]

theorem tzx_skip_hw_known (t : Tape) :
    (tzx_skip_hw t).initial_level_known = t.initial_level_known := by
  unfold tzx_skip_hw
  simp [rd_u8]

theorem tzx_skip_custom_known (t : Tape) :
    (tzx_skip_custom t).initial_level_known = t.initial_level_known := by
  unfold tzx_skip_custom
  simp [rd_u32, rd_u8]

theorem tzx_skip_glue_known (t : Tape) :
    (tzx_skip_glue t).initial_level_known = t.initial_level_known := by
  unfold tzx_skip_glue
  simp [rd_u32, rd_u8]

/-- The four facts about `tzx_read_and_prepare_next_block` the Pause
phase relies on: the 0x2B override flag is sticky across a read, a
successful read whose final state carries no override leaves the EAR at
the default high level, a successful read never leaves the engine in
Idle, and the level after a successful read is always the defined block
start level - the active 0x2B override or the default high - never a
function of the previous level. -/
theorem tzx_read_next_props :
    ∀ (fuel now : Nat) (t : Tape) (ok : Bool) (t2 : Tape),
    tzx_read_next fuel now t = some (ok, t2) →
    (t.initial_level_known = true → t2.initial_level_known = true) ∧
    (ok = true → t2.initial_level_known = false → t2.level = true) ∧
    (ok = true → t2.phase ≠ Phase.idle) ∧
    (ok = true →
      t2.level = (if t2.initial_level_known = true then t2.initial_level
        else true) ∨ t2.level = true) := by
  intro fuel
  induction fuel with
  | zero =>
      intro now t ok t2 h
      exact absurd h (by simp [tzx_read_next])
  | succ n ih =>
      intro now t ok t2 h
      unfold tzx_read_next at h
      simp only [rd_u8] at h
      by_cases heof : t.file.length ≤ t.pos
      · rw [if_pos heof] at h
        injection h with h1
        simp only [Prod.mk.injEq] at h1
        obtain ⟨ha, hb⟩ := h1
        subst ha
        subst hb
        refine ⟨fun hk => hk, fun ho _ => ?_, fun ho => ?_, fun ho => ?_⟩ <;>
          simp at ho
      rw [if_neg heof] at h
      by_cases hc0 : file_byte t t.pos = 0 ∨ file_byte t t.pos = 16
      · rw [if_pos hc0] at h
        injection h with h1
        simp only [Prod.mk.injEq] at h1
        obtain ⟨ha, hb⟩ := h1
        subst ha
        subst hb
        refine ⟨fun hk => ?_, fun ho hk => ?_, fun ho => ?_, fun ho => ?_⟩
        · rw [tzx_block_std_known]
          exact hk
        · refine tzx_block_std_level now _ ?_
          rw [tzx_block_std_known] at hk
          exact hk
        · exact tzx_block_std_phase now _
        · exact tzx_block_std_levelA now _
      rw [if_neg hc0] at h
      by_cases hc1 : file_byte t t.pos = 2 ∨ file_byte t t.pos = 18
      · rw [if_pos hc1] at h
        injection h with h1
        simp only [Prod.mk.injEq] at h1
        obtain ⟨ha, hb⟩ := h1
        subst ha
        subst hb
        refine ⟨fun hk => ?_, fun ho hk => ?_, fun ho => ?_, fun ho => ?_⟩
        · rw [tzx_block_tone_known]
          exact hk
        · refine tzx_block_tone_level now _ ?_
          rw [tzx_block_tone_known] at hk
          exact hk
        · exact tzx_block_tone_phase now _
        · exact tzx_block_tone_levelA now _
      rw [if_neg hc1] at h
      by_cases hc2 : file_byte t t.pos = 17
      · rw [if_pos hc2] at h
        injection h with h1
        simp only [Prod.mk.injEq] at h1
        obtain ⟨ha, hb⟩ := h1
        subst ha
        subst hb
        refine ⟨fun hk => ?_, fun ho hk => ?_, fun ho => ?_, fun ho => ?_⟩
        · rw [tzx_block_turbo_known]
          exact hk
        · refine tzx_block_turbo_level now _ ?_
          rw [tzx_block_turbo_known] at hk
          exact hk
        · exact tzx_block_turbo_phase now _
        · exact tzx_block_turbo_levelA now _
      rw [if_neg hc2] at h
      by_cases hc3 : file_byte t t.pos = 19
      · rw [if_pos hc3] at h
        injection h with h1
        simp only [Prod.mk.injEq] at h1
        obtain ⟨ha, hb⟩ := h1
        subst ha
        subst hb
        refine ⟨fun hk => ?_, fun ho hk => ?_, fun ho => ?_, fun ho => ?_⟩
        · rw [tzx_block_pulse_seq_known]
          exact hk
        · refine tzx_block_pulse_seq_level now _ ?_
          rw [tzx_block_pulse_seq_known] at hk
          exact hk
        · exact tzx_block_pulse_seq_phase now _
        · exact tzx_block_pulse_seq_levelA now _
      rw [if_neg hc3] at h
      by_cases hc4 : file_byte t t.pos = 20
      · rw [if_pos hc4] at h
        injection h with h1
        simp only [Prod.mk.injEq] at h1
        obtain ⟨ha, hb⟩ := h1
        subst ha
        subst hb
        refine ⟨fun hk => ?_, fun ho hk => ?_, fun ho => ?_, fun ho => ?_⟩
        · rw [tzx_block_pure_data_known]
          exact hk
        · refine tzx_block_pure_data_level now _ ?_
          rw [tzx_block_pure_data_known] at hk
          exact hk
        · exact tzx_block_pure_data_phase now _
        · exact tzx_block_pure_data_levelA now _
      rw [if_neg hc4] at h
      by_cases hc5 : file_byte t t.pos = 21
      · rw [if_pos hc5] at h
        injection h with h1
        simp only [Prod.mk.injEq] at h1
        obtain ⟨ha, hb⟩ := h1
        subst ha
        subst hb
        refine ⟨fun hk => ?_, fun ho hk => ?_, fun ho => ?_, fun ho => ?_⟩
        · rw [tzx_block_direct_known]
          exact hk
        · refine tzx_block_direct_level now _ ?_
          rw [tzx_block_direct_known] at hk
          exact hk
        · exact tzx_block_direct_phase now _
        · exact tzx_block_direct_levelA now _
      rw [if_neg hc5] at h
      by_cases hc6 : file_byte t t.pos = 24
      · rw [if_pos hc6] at h
        injection h with h1
        simp only [Prod.mk.injEq] at h1
        obtain ⟨ha, hb⟩ := h1
        subst ha
        subst hb
        refine ⟨fun hk => ?_, fun ho hk => ?_, fun ho => ?_, fun ho => ?_⟩
        · rw [tzx_block_csw_known]
          exact hk
        · refine tzx_block_csw_level now _ ?_
          rw [tzx_block_csw_known] at hk
          exact hk
        · exact tzx_block_csw_phase now _
        · exact tzx_block_csw_levelA now _
      rw [if_neg hc6] at h
      by_cases hc7 : file_byte t t.pos = 25
      · rw [if_pos hc7] at h
        injection h with h1
        simp only [Prod.mk.injEq] at h1
        obtain ⟨ha, hb⟩ := h1
        subst ha
        subst hb
        refine ⟨fun hk => ?_, fun ho hk => ?_, fun ho => ?_, fun ho => ?_⟩
        · rw [tzx_block_gdb_known]
          exact hk
        · refine tzx_block_gdb_level now _ ?_
          rw [tzx_block_gdb_known] at hk
          exact hk
        · exact tzx_block_gdb_phase now _
        · exact tzx_block_gdb_levelA now _
      rw [if_neg hc7] at h
      by_cases hc8 : file_byte t t.pos = 32
      · rw [if_pos hc8] at h
        injection h with h1
        simp only [Prod.ext_iff] at h1
        obtain ⟨ha, hb⟩ := h1
        subst ha
        subst hb
        refine ⟨fun hk => ?_, fun ho hk => ?_, fun ho => ?_, fun ho => ?_⟩
        · rw [tzx_block_pause20_known]
          exact hk
        · exact tzx_block_pause20_level now _
        · exact tzx_block_pause20_phase now _ ho
        · exact Or.inr (tzx_block_pause20_level now _)
      rw [if_neg hc8] at h
      by_cases hc9 : file_byte t t.pos = 33
      · rw [if_pos hc9] at h
        obtain ⟨i1, i2, i3, i4⟩ := ih _ _ _ _ h
        refine ⟨fun hk => i1 ?_, i2, i3, i4⟩
        rw [tzx_skip_group_start_known]
        exact hk
      rw [if_neg hc9] at h
      by_cases hc10 : file_byte t t.pos = 34
      · rw [if_pos hc10] at h
        obtain ⟨i1, i2, i3, i4⟩ := ih _ _ _ _ h
        exact ⟨fun hk => i1 hk, i2, i3, i4⟩
      rw [if_neg hc10] at h
      by_cases hc11 : file_byte t t.pos = 36
      · rw [if_pos hc11] at h
        obtain ⟨i1, i2, i3, i4⟩ := ih _ _ _ _ h
        refine ⟨fun hk => i1 ?_, i2, i3, i4⟩
        rw [tzx_skip_loop_start_known]
        exact hk
      rw [if_neg hc11] at h
      by_cases hc12 : file_byte t t.pos = 37
      · rw [if_pos hc12] at h
        obtain ⟨i1, i2, i3, i4⟩ := ih _ _ _ _ h
        refine ⟨fun hk => i1 ?_, i2, i3, i4⟩
        rw [tzx_step_loop_end_known]
        exact hk
      rw [if_neg hc12] at h
      by_cases hc13 : file_byte t t.pos = 42
      · rw [if_pos hc13] at h
        injection h with h1
        simp only [Prod.mk.injEq] at h1
        obtain ⟨ha, hb⟩ := h1
        subst ha
        subst hb
        refine ⟨fun hk => hk, fun ho _ => ?_, fun ho => ?_, fun ho => ?_⟩ <;>
          simp at ho
      rw [if_neg hc13] at h
      by_cases hc14 : file_byte t t.pos = 43
      · rw [if_pos hc14] at h
        obtain ⟨i1, i2, i3, i4⟩ := ih _ _ _ _ h
        exact ⟨fun _ => i1 (tzx_set_level_known _), i2, i3, i4⟩
      rw [if_neg hc14] at h
      by_cases hc15 : file_byte t t.pos = 48
      · rw [if_pos hc15] at h
        obtain ⟨i1, i2, i3, i4⟩ := ih _ _ _ _ h
        refine ⟨fun hk => i1 ?_, i2, i3, i4⟩
        rw [tzx_skip_text_known]
        exact hk
      rw [if_neg hc15] at h
      by_cases hc16 : file_byte t t.pos = 49
      · rw [if_pos hc16] at h
        obtain ⟨i1, i2, i3, i4⟩ := ih _ _ _ _ h
        refine ⟨fun hk => i1 ?_, i2, i3, i4⟩
        rw [tzx_skip_message_known]
        exact hk
      rw [if_neg hc16] at h
      by_cases hc17 : file_byte t t.pos = 50
      · rw [if_pos hc17] at h
        obtain ⟨i1, i2, i3, i4⟩ := ih _ _ _ _ h
        refine ⟨fun hk => i1 ?_, i2, i3, i4⟩
        rw [tzx_skip_archive_known]
        exact hk
      rw [if_neg hc17] at h
      by_cases hc18 : file_byte t t.pos = 51
      · rw [if_pos hc18] at h
        obtain ⟨i1, i2, i3, i4⟩ := ih _ _ _ _ h
        refine ⟨fun hk => i1 ?_, i2, i3, i4⟩
        rw [tzx_skip_hw_known]
        exact hk
      rw [if_neg hc18] at h
      by_cases hc19 : file_byte t t.pos = 53
      · rw [if_pos hc19] at h
        obtain ⟨i1, i2, i3, i4⟩ := ih _ _ _ _ h
        refine ⟨fun hk => i1 ?_, i2, i3, i4⟩
        rw [tzx_skip_custom_known]
        exact hk
      rw [if_neg hc19] at h
      by_cases hc20 : file_byte t t.pos = 90
      · rw [if_pos hc20] at h
        obtain ⟨i1, i2, i3, i4⟩ := ih _ _ _ _ h
        refine ⟨fun hk => i1 ?_, i2, i3, i4⟩
        rw [tzx_skip_glue_known]
        exact hk
      rw [if_neg hc20] at h
      injection h with h1
      simp only [Prod.mk.injEq] at h1
      obtain ⟨ha, hb⟩ := h1
      subst ha
      subst hb
      refine ⟨fun hk => hk, fun ho _ => ?_, fun ho => ?_, fun ho => ?_⟩ <;>
        simp at ho

/-! ### C4: Pause transitions emit no edges -/

/-- `tap_read_next_block` never touches the 0x2B override flag (no TAP
code path sets it). -/
theorem tap_read_next_block_known (u : Tape) :
    (tap_read_next_block u).2.initial_level_known = u.initial_level_known := by
  unfold tap_read_next_block
  dsimp only [rd_u16, rd_u8, read_bytes]
  repeat' split
  all_goals rfl

/-- C4: in the Pause phase the expiry transition into the next block emits
no EAR edge.  TAP: `start_pause` parks the level high, and with no level
override active (TAP playback never sets one) the transition returns the
level exactly as it was - the unconditional toggle at the top of the loop
is always overwritten by the block-start assignment.  TZX: the toggle is
skipped for the Pause phase, and the level after the transition is the
defined block start level - the 0x2B-declared initial level when an
override is active, otherwise forced high (end of tape and a stop block
also force it high) - never a function of the pre-pause level. -/
theorem C4_pause_no_edge :
    (∀ (now : Nat) (t : Tape), (start_pause now t).level = true) ∧
    (∀ (now : Nat) (t : Tape), t.phase = Phase.pause → t.level = true →
      t.initial_level_known = false →
      (tap_process_edge now t).level = t.level) ∧
    (∀ (rfuel now : Nat) (t t2 : Tape), t.phase = Phase.pause →
      tzx_process_edge rfuel now t = some t2 →
      t2.level = (if t2.initial_level_known = true then t2.initial_level
        else true) ∨ t2.level = true) := by
  refine ⟨fun now t => rfl, ?_, ?_⟩
  · intro now t hp hl hk
    unfold tap_process_edge
    dsimp only
    rw [hp]
    dsimp only
    rcases hm : tap_read_next_block
        { t with phase := Phase.pause, level := !t.level } with ⟨ok, t2⟩
    have h2 : t2.initial_level_known = false := by
      have hx := tap_read_next_block_known
        { t with phase := Phase.pause, level := !t.level }
      rw [hm] at hx
      simpa [hk] using hx
    cases ok
    · dsimp only
      rw [hl]
    · dsimp only
      unfold start_block_emission
      dsimp only
      rw [h2]
      simp [hl]
  · intro rfuel now t t2 hp h
    unfold tzx_process_edge at h
    dsimp only at h
    rw [if_neg (by simp [hp] : ¬ t.phase ≠ Phase.pause)] at h
    rw [hp] at h
    dsimp only at h
    rcases hr : tzx_read_next rfuel now t with _ | ⟨ok, t3⟩
    · rw [hr] at h
      exact absurd h (by simp)
    · rw [hr] at h
      cases ok
      · dsimp only at h
        injection h with h1
        subst h1
        exact Or.inr rfl
      · dsimp only at h
        injection h with h1
        subst h1
        exact (tzx_read_next_props rfuel now t true t3 hr).2.2.2 rfl

/-- C4 witness: the TAP engine paused before a 2-byte block (`c4_tap_ex`,
level high) keeps its level across the expiry at clock 80, and the TZX
engine paused before a Pure Tone block (`c4_tzx_ex`) comes out of the
expiry at the tone block start level. -/
theorem C4_pause_no_edge_witness :
    (tap_process_edge 80 c4_tap_ex).level = c4_tap_ex.level ∧
    ((tzx_block_tone 80 { c4_tzx_ex with pos := 1 }).level =
      (if (tzx_block_tone 80 { c4_tzx_ex with pos := 1 }).initial_level_known
          = true then
        (tzx_block_tone 80 { c4_tzx_ex with pos := 1 }).initial_level
      else true) ∨
     (tzx_block_tone 80 { c4_tzx_ex with pos := 1 }).level = true) :=
  ⟨C4_pause_no_edge.2.1 80 c4_tap_ex rfl rfl rfl,
   C4_pause_no_edge.2.2 9 80 c4_tzx_ex
     (tzx_block_tone 80 { c4_tzx_ex with pos := 1 }) rfl rfl⟩

/-! ### C3: the catch-up loop and its per-edge toggling -/

/-- `tzx_data_after` only schedules; it never changes the level. -/
theorem tzx_data_after_level (u : Tape) : (tzx_data_after u).level = u.level := by
  unfold tzx_data_after
  split <;> rfl

/-- When the TAP catch-up loop exits through its own conditions, either
the engine went Idle or every remaining edge is strictly in the future. -/
theorem tap_loop_post : ∀ (k now : Nat) (t : Tape),
    (tap_loop k now t).2 = true →
    (tap_loop k now t).1.phase = Phase.idle ∨
      now < (tap_loop k now t).1.next_edge_cycle := by
  intro k
  induction k with
  | zero =>
      intro now t h
      exact absurd h (by simp [tap_loop])
  | succ m ih =>
      intro now t h
      unfold tap_loop at h ⊢
      by_cases hg : t.next_edge_cycle ≤ now
      · rw [if_pos hg] at h ⊢
        dsimp only at h ⊢
        by_cases hi : (tap_process_edge now t).phase = Phase.idle
        · rw [if_pos hi] at h ⊢
          exact Or.inl hi
        · rw [if_neg hi] at h ⊢
          exact ih now _ h
      · rw [if_neg hg] at h ⊢
        right
        dsimp only
        omega

/-- The same postcondition for the TZX catch-up loop. -/
theorem tzx_loop_post : ∀ (k rfuel now : Nat) (t : Tape),
    (tzx_loop k rfuel now t).2 = true →
    (tzx_loop k rfuel now t).1.phase = Phase.idle ∨
      now < (tzx_loop k rfuel now t).1.next_edge_cycle := by
  intro k
  induction k with
  | zero =>
      intro rfuel now t h
      exact absurd h (by simp [tzx_loop])
  | succ m ih =>
      intro rfuel now t h
      unfold tzx_loop at h ⊢
      by_cases hg : t.next_edge_cycle ≤ now
      · rw [if_pos hg] at h ⊢
        rcases he : tzx_process_edge rfuel now t with _ | t2
        · rw [he] at h
          exact absurd h (by simp)
        · rw [he] at h
          dsimp only at h ⊢
          by_cases hi : t2.phase = Phase.idle
          · rw [if_pos hi] at h ⊢
            exact Or.inl hi
          · rw [if_neg hi] at h ⊢
            exact ih rfuel now t2 h
      · rw [if_neg hg] at h ⊢
        right
        dsimp only
        omega

/-- A TAP edge in the pilot, sync or non-final data positions nets exactly
one toggle. -/
theorem tap_edge_toggle (now : Nat) (t : Tape)
    (hp : t.phase = Phase.pilot ∨ t.phase = Phase.sync1 ∨
      t.phase = Phase.sync2 ∨
      (t.phase = Phase.data ∧
        ¬(t.pulse_of_bit ^^^ 1 ≠ 1 ∧ (t.cur_bit - 1 : Int) < 0 ∧
          t.blk_len ≤ t.data_pos))) :
    (tap_process_edge now t).level = !t.level := by
  unfold tap_process_edge
  dsimp only
  rcases hp with hp | hp | hp | ⟨hp, hx⟩ <;> rw [hp] <;> dsimp only
  · split <;> rfl
  · by_cases h1 : t.pulse_of_bit ^^^ 1 = 1
    · rw [if_pos h1]
    · rw [if_neg h1]
      by_cases h2 : (t.cur_bit - 1 : Int) < 0
      · rw [if_pos h2]
        by_cases h3 : t.blk_len ≤ t.data_pos
        · exact absurd ⟨h1, h2, h3⟩ hx
        · rw [if_neg h3]
          rfl
      · rw [if_neg h2]
        rfl

/-- The final TAP data edge hands over to `start_pause`, which forces the
level high instead of toggling. -/
theorem tap_edge_final (now : Nat) (t : Tape) (hp : t.phase = Phase.data)
    (h1 : t.pulse_of_bit ^^^ 1 ≠ 1) (h2 : (t.cur_bit - 1 : Int) < 0)
    (h3 : t.blk_len ≤ t.data_pos) :
    (tap_process_edge now t).level = true := by
  unfold tap_process_edge
  dsimp only
  rw [hp]
  dsimp only
  rw [if_neg h1, if_pos h2, if_pos h3]
  rfl

/-- A TZX edge in any tone, sync, data or pulse-sequence position nets
exactly one toggle. -/
theorem tzx_edge_toggle (rfuel now : Nat) (t : Tape)
    (hp : t.phase = Phase.pilot ∨ t.phase = Phase.pureTone ∨
      t.phase = Phase.sync1 ∨ t.phase = Phase.sync2 ∨ t.phase = Phase.data ∨
      t.phase = Phase.pulseSeq) :
    Option.map Tape.level (tzx_process_edge rfuel now t) =
      some (!t.level) := by
  have hn : t.phase ≠ Phase.pause := by
    rcases hp with hp | hp | hp | hp | hp | hp <;> simp [hp]
  unfold tzx_process_edge
  dsimp only
  rw [if_pos hn]
  rcases hp with hp | hp | hp | hp | hp | hp <;> rw [hp] <;> dsimp only
  · repeat' split
    all_goals rfl
  · repeat' split
    all_goals rfl
  · split <;> rfl
  · rfl
  · repeat' split
    all_goals (first | rfl | simp [tzx_data_after_level])
  · split <;> rfl

/-- C3, counterexample: at `c3_ex` (Direct Recording, sample bit 0, EAR
high, edge due at clock 50) the query at clock 50 consumes exactly one
edge - the sample index and the next-edge time advance and the loop
completes - yet the EAR level comes back unchanged, so the claimed
"toggling the EAR level exactly once per edge" fails. -/
theorem C3_counterexample :
    (tzx_ear_level_until 4 9 50 c3_ex).1.dr_bit_index =
      c3_ex.dr_bit_index + 1 ∧
    (tzx_ear_level_until 4 9 50 c3_ex).1.next_edge_cycle = 150 ∧
    (tzx_ear_level_until 4 9 50 c3_ex).2.2 = true ∧
    (tzx_ear_level_until 4 9 50 c3_ex).1.level = c3_ex.level := by
  refine ⟨?_, ?_, ?_, ?_⟩ <;> decide

/-- C3, amended: an EAR-level query advances the state machine through
every edge with scheduled time at most `now` - when the catch-up loop of
either engine completes, the engine is Idle or the next edge is strictly
in the future - and each consumed edge toggles the level exactly once in
the pilot/tone, sync, non-final data and pulse-sequence positions; the
exceptions are the final data edge of a TAP block (forced high by
`start_pause`), the Pause phase (no toggle), and TZX Direct Recording
sample edges (level assigned from the sample stream, possibly unchanged
across an edge). -/
theorem C3_amended :
    (∀ (fuel now : Nat) (t : Tape), t.playing = true → t.has_f = true →
      (tap_ear_level_until fuel now t).2.2 = true →
      (tap_ear_level_until fuel now t).1.phase = Phase.idle ∨
        now < (tap_ear_level_until fuel now t).1.next_edge_cycle) ∧
    (∀ (fuel rfuel now : Nat) (t : Tape), t.playing = true → t.has_f = true →
      (tzx_ear_level_until fuel rfuel now t).2.2 = true →
      (tzx_ear_level_until fuel rfuel now t).1.phase = Phase.idle ∨
        now < (tzx_ear_level_until fuel rfuel now t).1.next_edge_cycle) ∧
    (∀ (now : Nat) (t : Tape),
      t.phase = Phase.pilot ∨ t.phase = Phase.sync1 ∨ t.phase = Phase.sync2 ∨
        (t.phase = Phase.data ∧
          ¬(t.pulse_of_bit ^^^ 1 ≠ 1 ∧ (t.cur_bit - 1 : Int) < 0 ∧
            t.blk_len ≤ t.data_pos)) →
      (tap_process_edge now t).level = !t.level) ∧
    (∀ (now : Nat) (t : Tape), t.phase = Phase.data →
      t.pulse_of_bit ^^^ 1 ≠ 1 → (t.cur_bit - 1 : Int) < 0 →
      t.blk_len ≤ t.data_pos →
      (tap_process_edge now t).level = true) ∧
    (∀ (rfuel now : Nat) (t : Tape),
      t.phase = Phase.pilot ∨ t.phase = Phase.pureTone ∨
        t.phase = Phase.sync1 ∨ t.phase = Phase.sync2 ∨ t.phase = Phase.data ∨
        t.phase = Phase.pulseSeq →
      Option.map Tape.level (tzx_process_edge rfuel now t) =
        some (!t.level)) := by
  refine ⟨?_, ?_, ?_, ?_, ?_⟩
  · intro fuel now t hpl hf h
    unfold tap_ear_level_until at h ⊢
    by_cases hg : t.playing = false ∨ t.has_f = false ∨ t.phase = Phase.idle
    · rw [if_pos hg] at h ⊢
      rcases hg with hg | hg | hg
      · rw [hpl] at hg
        exact absurd hg (by simp)
      · rw [hf] at hg
        exact absurd hg (by simp)
      · exact Or.inl hg
    · rw [if_neg hg] at h ⊢
      rcases hl : tap_loop fuel now t with ⟨t2, dn⟩
      rw [hl] at h
      dsimp only at h ⊢
      have hpost := tap_loop_post fuel now t
      rw [hl] at hpost
      exact hpost h
  · intro fuel rfuel now t hpl hf h
    unfold tzx_ear_level_until at h ⊢
    by_cases hg : t.playing = false ∨ t.has_f = false ∨ t.phase = Phase.idle
    · rw [if_pos hg] at h ⊢
      rcases hg with hg | hg | hg
      · rw [hpl] at hg
        exact absurd hg (by simp)
      · rw [hf] at hg
        exact absurd hg (by simp)
      · exact Or.inl hg
    · rw [if_neg hg] at h ⊢
      rcases hl : tzx_loop fuel rfuel now t with ⟨t2, dn⟩
      rw [hl] at h
      dsimp only at h ⊢
      have hpost := tzx_loop_post fuel rfuel now t
      rw [hl] at hpost
      exact hpost h
  · exact fun now t hp => tap_edge_toggle now t hp
  · exact fun now t hp h1 h2 h3 => tap_edge_final now t hp h1 h2 h3
  · exact fun rfuel now t hp => tzx_edge_toggle rfuel now t hp

/-- C3 witness: the amended facts at concrete states - a pilot-phase TAP
engine queried before its edge, a sync-phase TZX engine queried before its
edge, a TAP pilot edge, the final TAP data edge and a TZX sync edge. -/
theorem C3_amended_witness :
    ((tap_ear_level_until 1 20 c3_tap_w).1.phase = Phase.idle ∨
      20 < (tap_ear_level_until 1 20 c3_tap_w).1.next_edge_cycle) ∧
    ((tzx_ear_level_until 1 9 20 c3_tzx_w).1.phase = Phase.idle ∨
      20 < (tzx_ear_level_until 1 9 20 c3_tzx_w).1.next_edge_cycle) ∧
    (tap_process_edge 30 c3_tap_w).level = !c3_tap_w.level ∧
    (tap_process_edge 40 c3_tap_d).level = true ∧
    Option.map Tape.level (tzx_process_edge 9 30 c3_tzx_w) =
      some (!c3_tzx_w.level) :=
  ⟨C3_amended.1 1 20 c3_tap_w rfl rfl (by decide),
   C3_amended.2.1 1 9 20 c3_tzx_w rfl rfl (by decide),
   C3_amended.2.2.1 30 c3_tap_w (Or.inl rfl),
   C3_amended.2.2.2.1 40 c3_tap_d rfl (by decide) (by decide) (by decide),
   C3_amended.2.2.2.2 9 30 c3_tzx_w (Or.inr (Or.inr (Or.inl rfl)))⟩

end MinZX
